import Mathlib

/-!
Shallow embedding of the CMORPH ingest pipeline
(`src/backend/ingest/ingest_cmorph_day.py`) and proofs about it.

Modelling conventions:
* Python floats are modelled as rationals (`ℚ`).  Every numeric constant
  appearing in the claims (`0.25`, `-59.875`, `23.0`, `50.0`, `232.0`,
  `295.0`, `-999.0`, ...) is a dyadic rational on which IEEE-754 double
  arithmetic used by the source is exact, so the rational model agrees
  with the source at every input the theorems touch.
* Python exceptions are modelled as error values of an `Except`-style
  result; the constructor names record which Python exception class the
  source raises at the corresponding program point.
* File, network and logging effects are out of scope (external
  collaborators per the specification); the contents the source would
  read are inputs of the model.
-/

namespace Cmorph

instance {ε α : Type _} [DecidableEq ε] [DecidableEq α] :
    DecidableEq (Except ε α) := fun a b =>
  match a, b with
  | .error e1, .error e2 =>
    if h : e1 = e2 then isTrue (by rw [h])
    else isFalse (by intro hc; cases hc; exact h rfl)
  | .ok a1, .ok a2 =>
    if h : a1 = a2 then isTrue (by rw [h])
    else isFalse (by intro hc; cases hc; exact h rfl)
  | .error e1, .ok a2 => isFalse (by intro hc; cases hc)
  | .ok a1, .error e2 => isFalse (by intro hc; cases hc)

/-! ## `_frange` (source lines 313-317)

The source generator is
`i = start; while i < stop: yield i; i += step`.
The model carries a fuel counter: when the fuel runs out while the loop
condition still holds the model answers `none`, which corresponds to the
Python loop not terminating within that many iterations.  Every call
site passes `stop = start + count*step` and fuel `count.toNat`, for
which the lemmas below show `none` occurs exactly when the Python loop
diverges. -/

def frange (fuel : ℕ) (start stop step : ℚ) : Option (List ℚ) :=
  match fuel with
  | 0 => if start < stop then none else some []
  | f + 1 =>
    if start < stop then (frange f (start + step) stop step).map (start :: ·)
    else some []

/-- Axis values as the orchestrator builds them (source lines 194-201):
`lat_end = ydef_start + ydef_count * ydef_increment` and then
`list(_frange(lat_start, lat_end, ydef_increment))`. -/
def axisValues (count : ℤ) (start increment : ℚ) : Option (List ℚ) :=
  frange count.toNat start (start + count * increment) increment

theorem frange_pos_step (step : ℚ) (hstep : 0 < step) :
    ∀ (n : ℕ) (fuel : ℕ) (start : ℚ), n ≤ fuel →
      frange fuel start (start + n * step) step =
        some ((List.range n).map fun k : ℕ => start + (k : ℚ) * step) := by
  intro n
  induction n with
  | zero =>
    intro fuel start _
    simp only [Nat.cast_zero, zero_mul, add_zero, List.range_zero, List.map_nil]
    cases fuel with
    | zero => simp [frange]
    | succ f => simp [frange]
  | succ m ih =>
    intro fuel start hfuel
    cases fuel with
    | zero => omega
    | succ f =>
      have hstop : start < start + (m + 1 : ℕ) * step := by
        have : (0 : ℚ) < (m + 1 : ℕ) * step := by
          apply mul_pos _ hstep
          exact_mod_cast Nat.succ_pos m
        linarith
      have harg : start + (m + 1 : ℕ) * step = (start + step) + (m : ℕ) * step := by
        push_cast; ring
      have ihm := ih f (start + step) (by omega)
      rw [frange, if_pos hstop, harg, ihm]
      rw [Option.map_some']
      congr 1
      rw [List.range_succ_eq_map, List.map_cons, List.map_map]
      congr 1
      · norm_num
      · apply List.map_congr_left
        intro k _
        simp only [Function.comp_apply]
        push_cast
        ring

theorem frange_neg_step (step : ℚ) (hstep : step < 0) (n fuel : ℕ) (start : ℚ) :
    frange fuel start (start + n * step) step = some [] := by
  have hstop : ¬ start < start + (n : ℕ) * step := by
    have : ((n : ℚ)) * step ≤ 0 := mul_nonpos_of_nonneg_of_nonpos (by positivity) (le_of_lt hstep)
    nlinarith
  cases fuel with
  | zero => simp [frange, hstop]
  | succ f => simp [frange, hstop]

/-- With a positive increment and a positive declared count, the axis
value list is the arithmetic progression of exactly `count` terms. -/
theorem axisValues_pos (count : ℤ) (start increment : ℚ)
    (hc : 0 < count) (hi : 0 < increment) :
    axisValues count start increment =
      some ((List.range count.toNat).map fun k : ℕ => start + (k : ℚ) * increment) := by
  unfold axisValues
  have hcast : (count : ℚ) = ((count.toNat : ℕ) : ℚ) := by
    rw_mod_cast [Int.toNat_of_nonneg (le_of_lt hc)]
  rw [hcast]
  exact frange_pos_step increment hi count.toNat count.toNat start le_rfl

/-- With a negative increment and nonnegative declared count the
generated axis value list is empty. -/
theorem axisValues_neg (count : ℤ) (start increment : ℚ)
    (hc : 0 ≤ count) (hi : increment < 0) :
    axisValues count start increment = some [] := by
  unfold axisValues
  have hcast : (count : ℚ) = ((count.toNat : ℕ) : ℚ) := by
    rw_mod_cast [Int.toNat_of_nonneg hc]
  rw [hcast]
  exact frange_neg_step increment hi count.toNat count.toNat start

/-! ## `bisect` and `_find_closest` (source lines 34-55)

`bisect.bisect_right` / `bisect.bisect_left` are the CPython binary
search loops, transcribed directly. -/

def bisectRightAux (a : List ℚ) (x : ℚ) (lo hi : ℕ) : ℕ :=
  if h : lo < hi then
    let mid := (lo + hi) / 2
    if x < a.getD mid 0 then bisectRightAux a x lo mid
    else bisectRightAux a x (mid + 1) hi
  else lo
termination_by hi - lo
decreasing_by
  · omega
  · omega

def bisectLeftAux (a : List ℚ) (x : ℚ) (lo hi : ℕ) : ℕ :=
  if h : lo < hi then
    let mid := (lo + hi) / 2
    if a.getD mid 0 < x then bisectLeftAux a x (mid + 1) hi
    else bisectLeftAux a x lo mid
  else lo
termination_by hi - lo
decreasing_by
  · omega
  · omega

def bisectRight (a : List ℚ) (x : ℚ) : ℕ := bisectRightAux a x 0 a.length

def bisectLeft (a : List ℚ) (x : ℚ) : ℕ := bisectLeftAux a x 0 a.length

inductive IngestErr where
  /-- `IndexError` or `ValueError` raised inside `_read_description`. -/
  | malformedDescriptor
  /-- `KeyError`: the description dictionary lacks the named key. -/
  | keyError (field : String)
  /-- `ValueError` raised by `_find_closest` (spec name: `OutOfRange`). -/
  | outOfRange
  /-- `IndexError` on `daily_files[0]` when the glob matched nothing. -/
  | indexError
  /-- `TypeError`: `np.fromfile` / `netCDF4.Dataset` / `os.remove`
      handed the list returned by `glob` instead of a single path. -/
  | typeError
  /-- `ValueError` from `np.reshape` (spec name: `ShapeMismatch`). -/
  | shapeMismatch
  /-- Shape error raised by the netCDF slice assignment
      (spec name: `DimensionMismatch`). -/
  | dimensionMismatch
  deriving DecidableEq, Repr

/-- `_find_closest` (source lines 34-55): `bisect_left` when `before`
else `bisect_right`; raises `ValueError` when the index equals the list
length. -/
def findClosest (sortedValues : List ℚ) (value : ℚ) (before : Bool := false) :
    Except IngestErr ℕ :=
  let index := if before then bisectLeft sortedValues value
               else bisectRight sortedValues value
  if index ≠ sortedValues.length then .ok index else .error .outOfRange

/-- Sortedness in the form the binary-search proof consumes. -/
def SortedLe (a : List ℚ) : Prop :=
  ∀ i j, i ≤ j → j < a.length → a.getD i 0 ≤ a.getD j 0

theorem bisectRightAux_spec (a : List ℚ) (x : ℚ) (hs : SortedLe a) :
    ∀ (d lo hi : ℕ), hi - lo ≤ d → lo ≤ hi → hi ≤ a.length →
      (∀ i, i < lo → a.getD i 0 ≤ x) →
      (∀ i, hi ≤ i → i < a.length → x < a.getD i 0) →
      lo ≤ bisectRightAux a x lo hi ∧ bisectRightAux a x lo hi ≤ hi ∧
      (∀ i, i < bisectRightAux a x lo hi → a.getD i 0 ≤ x) ∧
      (∀ i, bisectRightAux a x lo hi ≤ i → i < a.length → x < a.getD i 0) := by
  intro d
  induction d with
  | zero =>
    intro lo hi hd hlh _ hlow hhigh
    have : lo = hi := by omega
    subst this
    rw [bisectRightAux]
    simp only [lt_irrefl, dite_false]
    exact ⟨le_rfl, le_rfl, hlow, hhigh⟩
  | succ d ih =>
    intro lo hi hd hlh hlen hlow hhigh
    by_cases h : lo < hi
    · rw [bisectRightAux, dif_pos h]
      simp only
      set mid := (lo + hi) / 2 with hmid
      have hmlo : lo ≤ mid := by omega
      have hmhi : mid < hi := by omega
      by_cases hx : x < a.getD mid 0
      · rw [if_pos hx]
        have hrec := ih lo mid (by omega) hmlo (by omega) hlow
          (fun i hi1 hi2 => lt_of_lt_of_le hx (hs mid i hi1 hi2))
        exact ⟨hrec.1, le_trans hrec.2.1 (by omega), hrec.2.2.1, hrec.2.2.2⟩
      · rw [if_neg hx]
        push_neg at hx
        have h1 : ∀ i, i < mid + 1 → a.getD i 0 ≤ x := by
          intro i hi1
          calc a.getD i 0 ≤ a.getD mid 0 := hs i mid (by omega) (by omega)
            _ ≤ x := hx
        have := ih (mid + 1) hi (by omega) (by omega) hlen h1 hhigh
        exact ⟨by omega, this.2.1, this.2.2.1, this.2.2.2⟩
    · rw [bisectRightAux, dif_neg h]
      have : lo = hi := by omega
      subst this
      exact ⟨le_rfl, le_rfl, hlow, hhigh⟩

/-- Pinning the result of `bisect_right`: if the first `m` values are
`≤ x` and the value at `m` exceeds `x` then the search answers `m`. -/
theorem bisectRight_eq (a : List ℚ) (x : ℚ) (m : ℕ) (hs : SortedLe a)
    (hm : m < a.length)
    (h1 : ∀ i, i < m → a.getD i 0 ≤ x) (h2 : x < a.getD m 0) :
    bisectRight a x = m := by
  have hspec := bisectRightAux_spec a x hs a.length 0 a.length (by omega)
    (Nat.zero_le _) le_rfl (by omega) (by omega)
  unfold bisectRight
  set n := bisectRightAux a x 0 a.length with hn
  rcases hspec with ⟨-, hn2, hn3, hn4⟩
  by_contra hne
  rcases Nat.lt_or_ge n m with hlt | hge
  · have := h1 n hlt
    have := hn4 n le_rfl (by omega)
    linarith
  · have hmn : m < n := by omega
    have := hn3 m hmn
    linarith


/-! ## The standard CMORPH axes and the CONUS clip (source lines 194-218)

The sample descriptor embedded in `_read_description`'s docstring
declares `XDEF 1440 LINEAR 0.125 0.25` and `YDEF 480 LINEAR -59.875
0.25`; `0.125 = 1/8`, `-59.875 = -479/8`, `0.25 = 1/4`. -/

/-- The arithmetic progression `c, c+s, c+2s, ...` of `n` terms; the
lemmas above show this is what `_frange` produces for a positive step. -/
def affineAxis (n : ℕ) (c s : ℚ) : List ℚ :=
  (List.range n).map fun k : ℕ => c + (k : ℚ) * s

theorem affineAxis_length (n : ℕ) (c s : ℚ) : (affineAxis n c s).length = n := by
  simp [affineAxis]

theorem affineAxis_getD (n : ℕ) (c s : ℚ) (i : ℕ) (h : i < n) :
    (affineAxis n c s).getD i 0 = c + (i : ℚ) * s := by
  unfold affineAxis
  rw [List.getD_eq_getElem?_getD, List.getElem?_map, List.getElem?_range h]
  rfl

theorem affineAxis_sorted (n : ℕ) (c s : ℚ) (hs : 0 ≤ s) :
    SortedLe (affineAxis n c s) := by
  intro i j hij hj
  rw [affineAxis_length] at hj
  rw [affineAxis_getD n c s i (lt_of_le_of_lt hij hj), affineAxis_getD n c s j hj]
  have hq : (i : ℚ) ≤ (j : ℚ) := by exact_mod_cast hij
  nlinarith

theorem affineAxis_pairwise (n : ℕ) (c s : ℚ) (hs : 0 < s) :
    (affineAxis n c s).Pairwise (· < ·) := by
  unfold affineAxis
  refine (List.pairwise_lt_range n).map _ ?_
  intro a b hab
  have hq : (a : ℚ) < (b : ℚ) := by exact_mod_cast hab
  nlinarith

/-- The latitude axis generated for the standard descriptor
(`YDEF 480 LINEAR -59.875 0.25`, source lines 194-200). -/
def stdLatAxis : List ℚ := (axisValues 480 (-479/8) (1/4)).getD []

/-- The longitude axis generated for the standard descriptor
(`XDEF 1440 LINEAR 0.125 0.25`, source lines 196-201). -/
def stdLonAxis : List ℚ := (axisValues 1440 (1/8) (1/4)).getD []

theorem stdLatAxis_eq : stdLatAxis = affineAxis 480 (-479/8) (1/4) := by
  unfold stdLatAxis affineAxis
  rw [axisValues_pos 480 _ _ (by norm_num) (by norm_num)]
  rw [show ((480 : ℤ).toNat) = 480 from rfl, Option.getD_some]

theorem stdLonAxis_eq : stdLonAxis = affineAxis 1440 (1/8) (1/4) := by
  unfold stdLonAxis affineAxis
  rw [axisValues_pos 1440 _ _ (by norm_num) (by norm_num)]
  rw [show ((1440 : ℤ).toNat) = 1440 from rfl, Option.getD_some]

theorem bisectRight_lat23 : bisectRight (affineAxis 480 (-479/8) (1/4)) 23 = 332 := by
  apply bisectRight_eq _ _ _ (affineAxis_sorted _ _ _ (by norm_num))
    (by rw [affineAxis_length]; omega)
  · intro i hi
    rw [affineAxis_getD _ _ _ i (by omega)]
    have hq : (i : ℚ) ≤ 331 := by exact_mod_cast Nat.le_of_lt_succ hi
    linarith
  · rw [affineAxis_getD _ _ _ 332 (by omega)]
    norm_num

theorem bisectRight_lat50 : bisectRight (affineAxis 480 (-479/8) (1/4)) 50 = 440 := by
  apply bisectRight_eq _ _ _ (affineAxis_sorted _ _ _ (by norm_num))
    (by rw [affineAxis_length]; omega)
  · intro i hi
    rw [affineAxis_getD _ _ _ i (by omega)]
    have hq : (i : ℚ) ≤ 439 := by exact_mod_cast Nat.le_of_lt_succ hi
    linarith
  · rw [affineAxis_getD _ _ _ 440 (by omega)]
    norm_num

theorem bisectRight_lon232 : bisectRight (affineAxis 1440 (1/8) (1/4)) 232 = 928 := by
  apply bisectRight_eq _ _ _ (affineAxis_sorted _ _ _ (by norm_num))
    (by rw [affineAxis_length]; omega)
  · intro i hi
    rw [affineAxis_getD _ _ _ i (by omega)]
    have hq : (i : ℚ) ≤ 927 := by exact_mod_cast Nat.le_of_lt_succ hi
    linarith
  · rw [affineAxis_getD _ _ _ 928 (by omega)]
    norm_num

theorem bisectRight_lon295 : bisectRight (affineAxis 1440 (1/8) (1/4)) 295 = 1180 := by
  apply bisectRight_eq _ _ _ (affineAxis_sorted _ _ _ (by norm_num))
    (by rw [affineAxis_length]; omega)
  · intro i hi
    rw [affineAxis_getD _ _ _ i (by omega)]
    have hq : (i : ℚ) ≤ 1179 := by exact_mod_cast Nat.le_of_lt_succ hi
    linarith
  · rw [affineAxis_getD _ _ _ 1180 (by omega)]
    norm_num

theorem findClosest_lat23 : findClosest stdLatAxis 23 = .ok 332 := by
  unfold findClosest
  rw [stdLatAxis_eq, bisectRight_lat23, affineAxis_length]
  norm_num

theorem findClosest_lat50 : findClosest stdLatAxis 50 = .ok 440 := by
  unfold findClosest
  rw [stdLatAxis_eq, bisectRight_lat50, affineAxis_length]
  norm_num

theorem findClosest_lon232 : findClosest stdLonAxis 232 = .ok 928 := by
  unfold findClosest
  rw [stdLonAxis_eq, bisectRight_lon232, affineAxis_length]
  norm_num

theorem findClosest_lon295 : findClosest stdLonAxis 295 = .ok 1180 := by
  unfold findClosest
  rw [stdLonAxis_eq, bisectRight_lon295, affineAxis_length]
  norm_num

/-- The CONUS latitude clip computed at source lines 211-212:
`lat_start = _find_closest(lat_values, 23.0)` and
`lat_end = _find_closest(lat_values, 50.0) + 1`. -/
def conusLatClip : Except IngestErr (ℕ × ℕ) := do
  let lo ← findClosest stdLatAxis 23
  let hi ← findClosest stdLatAxis 50
  pure (lo, hi + 1)

/-- The selected latitude values, `lat_values[lat_start : lat_end]`
(source line 217). -/
def conusLatSel : List ℚ :=
  match conusLatClip with
  | .ok (lo, hi) => (stdLatAxis.drop lo).take (hi - lo)
  | .error _ => []

theorem conusLatClip_eq : conusLatClip = .ok (332, 441) := by
  unfold conusLatClip
  rw [findClosest_lat23, findClosest_lat50]
  rfl

theorem conusLatSel_eq : conusLatSel = (stdLatAxis.drop 332).take 109 := by
  unfold conusLatSel
  rw [conusLatClip_eq]

theorem conusLatSel_length : conusLatSel.length = 109 := by
  rw [conusLatSel_eq, List.length_take, List.length_drop, stdLatAxis_eq,
    affineAxis_length]
  omega

theorem conusLatSel_getD (i : ℕ) (h : i < 109) :
    conusLatSel.getD i 0 = -479/8 + ((332 + i : ℕ) : ℚ) * (1/4) := by
  rw [conusLatSel_eq, stdLatAxis_eq]
  rw [List.getD_eq_getElem?_getD, List.getElem?_take_of_lt h, List.getElem?_drop]
  have h480 : 332 + i < 480 := by omega
  have := affineAxis_getD 480 (-479/8) (1/4) (332 + i) h480
  rw [List.getD_eq_getElem?_getD] at this
  exact this

/-! ## Claims C2 and C6 -/

/-- C2 counterexample: for the `YDEF 480 LINEAR -59.875 0.25` axis and
bounds `[23.0, 50.0]` the source computes the index range (332, 441)
(`bisect_right` plus one), and the selected latitude values contain
50.125, which is outside `[23.0, 50.0]`; so the selection is neither
"exactly the values within [23.0, 50.0] inclusive" nor the smallest
such range. -/
theorem C2_counterexample :
    conusLatClip = Except.ok (332, 441) ∧
    ((401 : ℚ)/8) ∈ conusLatSel ∧ ¬ ((401 : ℚ)/8 ≤ 50) := by
  refine ⟨conusLatClip_eq, ?_, by norm_num⟩
  have hlen : 108 < conusLatSel.length := by rw [conusLatSel_length]; omega
  have hval : conusLatSel.getD 108 0 = (401 : ℚ)/8 := by
    rw [conusLatSel_getD 108 (by omega)]; norm_num
  rw [← hval, List.getD_eq_getElem?_getD, List.getElem?_eq_getElem hlen,
    Option.getD_some]
  exact List.getElem_mem hlen

/-- C2 amended: for the `YDEF 480 LINEAR -59.875 0.25` axis and CONUS
bounds `[23.0, 50.0]`, `lo = 332` is the first index whose value is
`>= 23.0`, but `hi = 441` is one past the FIRST index whose value
EXCEEDS `50.0` (`bisect_right` + 1, i.e. two past the last index whose
value is `<= 50.0` since 50.0 is not an axis value), so the selected
index range [332, 441) covers exactly the values within `[23.0, 50.0]`
plus the single extra value `50.125` at index 440. -/
theorem C2_amended :
    conusLatClip = Except.ok (332, 441) ∧
    (∀ k, k < 480 → ((332 ≤ k ∧ k < 441) ↔
        ((23 ≤ stdLatAxis.getD k 0 ∧ stdLatAxis.getD k 0 ≤ 50) ∨ k = 440))) ∧
    stdLatAxis.getD 440 0 = 401/8 ∧
    conusLatSel.length = 109 := by
  refine ⟨conusLatClip_eq, ?_, ?_, conusLatSel_length⟩
  · intro k hk
    rw [stdLatAxis_eq, affineAxis_getD 480 _ _ k hk]
    constructor
    · rintro ⟨h1, h2⟩
      by_cases hk440 : k = 440
      · right; exact hk440
      · left
        constructor
        · have hq : (332 : ℚ) ≤ (k : ℚ) := by exact_mod_cast h1
          linarith
        · have hq : (k : ℚ) ≤ 439 := by
            exact_mod_cast (by omega : k ≤ 439)
          linarith
    · rintro (⟨h1, h2⟩ | rfl)
      · constructor
        · by_contra hlt
          push_neg at hlt
          have hq : (k : ℚ) ≤ 331 := by
            exact_mod_cast (by omega : k ≤ 331)
          linarith
        · by_contra hge
          push_neg at hge
          have hq : (441 : ℚ) ≤ (k : ℚ) := by exact_mod_cast hge
          linarith
      · omega
  · rw [stdLatAxis_eq, affineAxis_getD 480 _ _ 440 (by omega)]
    norm_num

/-- C2 witness: the amended characterization applied at the concrete
index 400 (value 40.125, inside the bounds and inside the range). -/
theorem C2_witness :
    conusLatClip = Except.ok (332, 441) ∧
    ((332 ≤ 400 ∧ 400 < 441) ↔
      ((23 ≤ stdLatAxis.getD 400 0 ∧ stdLatAxis.getD 400 0 ≤ 50) ∨ 400 = 440)) :=
  ⟨C2_amended.1, C2_amended.2.1 400 (by omega)⟩

/-- C6 counterexample: the axis spec count=2 (> 0), start=0,
increment=-1 (non-zero) generates the EMPTY coordinate sequence — 0
elements rather than the claimed `count = 2` strictly decreasing
elements, because `_frange`'s loop condition `i < stop` is false at
once for a negative step. -/
theorem C6_counterexample :
    axisValues 2 0 (-1) = some [] ∧
    ((axisValues 2 0 (-1)).getD []).length = 0 := by
  have h := axisValues_neg 2 0 (-1) (by norm_num) (by norm_num)
  exact ⟨h, by rw [h, Option.getD_some]; rfl⟩

/-- C6 amended: for a parsed axis spec with `count > 0`: when the
increment is POSITIVE, the generated coordinate sequence has exactly
`count` elements, the k-th (0-indexed) equal to `start + k*increment`,
strictly increasing; when the increment is NEGATIVE, the generated
sequence is empty (the `while i < stop` loop never runs), not a
strictly decreasing sequence of `count` elements. -/
theorem C6_amended (count : ℤ) (start increment : ℚ) (hc : 0 < count) :
    (0 < increment →
      axisValues count start increment =
        some ((List.range count.toNat).map fun k : ℕ => start + (k : ℚ) * increment) ∧
      ((axisValues count start increment).getD []).length = count.toNat ∧
      ((axisValues count start increment).getD []).Pairwise (· < ·)) ∧
    (increment < 0 → axisValues count start increment = some []) := by
  constructor
  · intro hi
    have h := axisValues_pos count start increment hc hi
    refine ⟨h, ?_, ?_⟩
    · rw [h, Option.getD_some]
      simp
    · rw [h, Option.getD_some]
      have hp := affineAxis_pairwise count.toNat start increment hi
      unfold affineAxis at hp
      exact hp
  · exact axisValues_neg count start increment (le_of_lt hc)

/-- C6 witness: the claim's own example `XDEF 1440 LINEAR 0.125 0.25`
gives first value 0.125, second 0.375, 1440 values total. -/
theorem C6_witness :
    axisValues 1440 (1/8) (1/4) =
      some ((List.range 1440).map fun k : ℕ => 1/8 + (k : ℚ) * (1/4)) ∧
    ((axisValues 1440 (1/8) (1/4)).getD []).length = 1440 ∧
    stdLonAxis.getD 0 0 = 1/8 ∧ stdLonAxis.getD 1 0 = 3/8 := by
  have h := (C6_amended 1440 (1/8) (1/4) (by norm_num)).1 (by norm_num)
  refine ⟨?_, ?_, ?_, ?_⟩
  · have h1 := h.1
    rw [show ((1440 : ℤ).toNat) = 1440 from rfl] at h1
    exact h1
  · have h2 := h.2.1
    rw [show ((1440 : ℤ).toNat) = 1440 from rfl] at h2
    exact h2
  · rw [stdLonAxis_eq, affineAxis_getD 1440 _ _ 0 (by omega)]
    norm_num
  · rw [stdLonAxis_eq, affineAxis_getD 1440 _ _ 1 (by omega)]
    norm_num

/-! ## Dates

`datetime.strptime(..., '%d%b%Y')` (source lines 376-378) and
`(datetime - datetime(1900,1,1)).days` (source lines 250-252). -/

/-- Month abbreviations matched by `%b` (case-insensitively). -/
def monthAbbrevs : List String :=
  ["jan", "feb", "mar", "apr", "may", "jun",
   "jul", "aug", "sep", "oct", "nov", "dec"]

def isLeapYear (y : ℕ) : Bool :=
  y % 4 == 0 && (y % 100 != 0 || y % 400 == 0)

def monthLengths (leap : Bool) : List ℕ :=
  [31, if leap then 29 else 28, 31, 30, 31, 30, 31, 31, 30, 31, 30, 31]

structure CDate where
  year : ℕ
  month : ℕ
  day : ℕ
  deriving DecidableEq, Repr

def digitVal (c : Char) : Option ℕ :=
  if c.isDigit then some (c.toNat - 48) else none

/-- Month + year + day-range validation part of `%d%b%Y`. -/
def finishDate (day : ℕ) (cs : List Char) : Option CDate :=
  match cs with
  | [m1, m2, m3, y1, y2, y3, y4] =>
    let mstr := String.mk [m1, m2, m3]
    let mi := monthAbbrevs.indexOf mstr
    if mi < 12 then
      match digitVal y1, digitVal y2, digitVal y3, digitVal y4 with
      | some a, some b, some c, some d =>
        let year := 1000 * a + 100 * b + 10 * c + d
        if 1 ≤ day ∧ day ≤ (monthLengths (isLeapYear year)).getD mi 31 then
          some ⟨year, mi + 1, day⟩
        else none
      | _, _, _, _ => none
    else none
  | _ => none

/-- Models CPython `datetime.strptime(s, '%d%b%Y')` on the string's
characters: a 1-2 digit day, a 3-letter month abbreviation matched
case-insensitively (input lower-cased), a 4-digit year, nothing else,
and the day valid for the month. -/
def parseDateDBY (cs0 : List Char) : Option CDate :=
  match cs0.map Char.toLower with
  | [] => none
  | c1 :: rest =>
    match digitVal c1 with
    | none => none
    | some d1 =>
      match rest with
      | [] => none
      | c2 :: rest2 =>
        match digitVal c2 with
        | some d2 => finishDate (10 * d1 + d2) rest2
        | none => finishDate d1 rest

/-- CPython `date.toordinal()`: proleptic-Gregorian day number with
0001-01-01 = day 1 (CPython `_ymd2ord`). -/
def toOrdinal (d : CDate) : ℕ :=
  365 * (d.year - 1) + (d.year - 1) / 4 - (d.year - 1) / 100 + (d.year - 1) / 400
    + ((monthLengths (isLeapYear d.year)).take (d.month - 1)).sum + d.day

/-- `(datetime(y,m,d) - datetime(1900,1,1)).days` (source lines
250-252). -/
def daysSince1900 (d : CDate) : ℤ :=
  (toOrdinal d : ℤ) - (toOrdinal ⟨1900, 1, 1⟩ : ℤ)

/-! ## `_read_description` (source lines 320-393)

A line is the list of its whitespace-separated tokens (`line.split()`).
A token is classified by how Python parses its raw string. -/

inductive ObsType where
  | raw
  | adjusted
  | icdr
  deriving DecidableEq, Repr

/-- A token: `int n` when Python `int()` and `float()` both accept the
raw string, `float q` when only `float()` does, `str s` otherwise (the
raw string is then available). -/
inductive Token where
  | int (n : ℤ)
  | float (q : ℚ)
  | str (s : String)
  deriving DecidableEq, Repr

def Token.asFloat : Token → Option ℚ
  | .int n => some (n : ℚ)
  | .float q => some q
  | .str _ => none

def Token.asInt : Token → Option ℤ
  | .int n => some n
  | _ => none

/-- `words[i] == "KEY"`: a token whose raw string parses as a number
never equals an alphabetic keyword. -/
def Token.isWord : Token → String → Bool
  | .str s, k => s == k
  | _, _ => false

/-- `strptime` applied to a token (with the 3-character time-of-day
stripped first for the adjusted/ICDR formats, `words[3][3:]`).  A token
whose raw string parses as a number can never match `%d%b%Y` (the
format requires three month letters), so numeric tokens fail. -/
def Token.asDate (stripHour : Bool) : Token → Option CDate
  | .str s => parseDateDBY (if stripHour then s.toList.drop 3 else s.toList)
  | _ => none

inductive DescErr where
  /-- `IndexError`: a subscript `words[i]` beyond the end of the token
      list, including `words[0]` on a blank line. -/
  | indexError
  /-- `ValueError`: `int()` / `float()` / `strptime()` applied to an
      unsuitable string. -/
  | valueError
  deriving DecidableEq, Repr

structure AxisDef where
  count : ℤ
  start : ℚ
  increment : ℚ
  deriving DecidableEq, Repr

/-- The `data_dict` built by `_read_description`.  Every field is
`none` until a line sets it.  `title` and `variableDescription` keep
the token lists (`' '.join(words[1:])` / `' '.join(words[4:])` in the
source; nothing downstream inspects the joined string, so the token
list is an equivalent representation). -/
structure DescDict where
  undef : Option ℚ := none
  xdef : Option AxisDef := none
  ydef : Option AxisDef := none
  startDate : Option CDate := none
  littleEndian : Option Bool := none
  variableDescription : Option (List Token) := none
  title : Option (List Token) := none
  deriving DecidableEq, Repr

/-- `words[i]`: `IndexError` when the subscript is out of range. -/
def reqIndex (words : List Token) (i : ℕ) : Except DescErr Token :=
  match words[i]? with
  | none => .error .indexError
  | some t => .ok t

/-- `float(token)`: `ValueError` when the raw string is not a float. -/
def reqFloat (t : Token) : Except DescErr ℚ :=
  match t.asFloat with
  | none => .error .valueError
  | some q => .ok q

/-- `int(token)`: `ValueError` when the raw string is not an int. -/
def reqInt (t : Token) : Except DescErr ℤ :=
  match t.asInt with
  | none => .error .valueError
  | some n => .ok n

/-- `strptime`: `ValueError` when the string does not match. -/
def reqDate (o : Option CDate) : Except DescErr CDate :=
  match o with
  | none => .error .valueError
  | some dt => .ok dt

/-- The `XDEF`/`YDEF` line body (source lines 366-373):
`int(words[1])`, `float(words[3])`, `float(words[4])`, in that
evaluation order (`words[2]`, the grid-type token `LINEAR`, is not
consumed). -/
def parseAxisLine (words : List Token) : Except DescErr AxisDef := do
  let n ← reqInt (← reqIndex words 1)
  let st ← reqFloat (← reqIndex words 3)
  let inc ← reqFloat (← reqIndex words 4)
  pure ⟨n, st, inc⟩

/-- The `elif` chain of source lines 364-387, with `w = words[0]`. -/
def procLineW (obsType : ObsType) (d : DescDict) (w : Token) (words : List Token) :
    Except DescErr DescDict :=
  if w.isWord "UNDEF" then do
    let q ← reqFloat (← reqIndex words 1)
    pure { d with undef := some q }
  else if w.isWord "XDEF" then do
    let ax ← parseAxisLine words
    pure { d with xdef := some ax }
  else if w.isWord "YDEF" then do
    let ax ← parseAxisLine words
    pure { d with ydef := some ax }
  else if w.isWord "TDEF" then do
    let t ← reqIndex words 3
    let dt ← reqDate (t.asDate (obsType == .adjusted || obsType == .icdr))
    pure { d with startDate := some dt }
  else if w.isWord "OPTIONS" then do
    let t ← reqIndex words 2
    pure { d with littleEndian := some (! t.isWord "big_endian") }
  else if w.isWord "cmorph" then
    pure { d with variableDescription := some (words.drop 4) }
  else if w.isWord "TITLE" then
    pure { d with title := some (words.drop 1) }
  else
    pure d

/-- One iteration of the `for line in fp` loop (source lines 362-387):
`words = line.split(); if words[0] == 'UNDEF': ... elif ...`; the
`words[0]` subscript raises `IndexError` on a blank line. -/
def procLine (obsType : ObsType) (d : DescDict) (words : List Token) :
    Except DescErr DescDict :=
  match words with
  | [] => .error .indexError
  | w :: _ => procLineW obsType d w words

/-- `_read_description`'s parse loop over the descriptor file content
(the download and removal of the file itself are external effects;
`lines` is the file content). -/
def readDescription (obsType : ObsType) (lines : List (List Token)) :
    Except DescErr DescDict :=
  lines.foldlM (procLine obsType) {}

def recognizedKeys : List String :=
  ["UNDEF", "XDEF", "YDEF", "TDEF", "OPTIONS", "cmorph", "TITLE"]

/-- A NONEMPTY line whose leading token is none of the recognized keys
(the `else`-less end of the `elif` chain skips it). -/
def lineIgnored (words : List Token) : Bool :=
  match words.head? with
  | none => false
  | some w => recognizedKeys.all (fun k => ! w.isWord k)

@[simp] theorem exceptBind_ok (a : α) (f : α → Except ε β) :
    (Except.ok a >>= f) = f a := rfl

@[simp] theorem exceptBind_error (e : ε) (f : α → Except ε β) :
    ((Except.error e : Except ε α) >>= f) = Except.error e := rfl

theorem procLine_ignored (obsType : ObsType) (d : DescDict) (words : List Token)
    (h : lineIgnored words = true) : procLine obsType d words = .ok d := by
  match words with
  | [] => cases h
  | w :: rest =>
    unfold lineIgnored at h
    simp only [List.head?_cons, List.all_eq_true, Bool.not_eq_eq_eq_not,
      Bool.not_true] at h
    show procLineW obsType d w (w :: rest) = .ok d
    unfold procLineW
    rw [h "UNDEF" (by simp [recognizedKeys]), h "XDEF" (by simp [recognizedKeys]),
      h "YDEF" (by simp [recognizedKeys]), h "TDEF" (by simp [recognizedKeys]),
      h "OPTIONS" (by simp [recognizedKeys]), h "cmorph" (by simp [recognizedKeys]),
      h "TITLE" (by simp [recognizedKeys])]
    simp only [Bool.false_eq_true, if_false]
    rfl

/-- A successful `procLine` step only changes the field belonging to
the line's leading keyword. -/
theorem procLine_preserves (obsType : ObsType) (d r : DescDict) (words : List Token)
    (hr : procLine obsType d words = .ok r) :
    (r.undef = d.undef ∨ ∃ w, words.head? = some w ∧ w.isWord "UNDEF" = true) ∧
    (r.xdef = d.xdef ∨ ∃ w, words.head? = some w ∧ w.isWord "XDEF" = true) ∧
    (r.ydef = d.ydef ∨ ∃ w, words.head? = some w ∧ w.isWord "YDEF" = true) ∧
    (r.title = d.title ∨ ∃ w, words.head? = some w ∧ w.isWord "TITLE" = true) := by
  match words with
  | [] => cases hr
  | w :: rest =>
    have hw : (w :: rest).head? = some w := rfl
    replace hr : procLineW obsType d w (w :: rest) = .ok r := hr
    unfold procLineW at hr
    by_cases h1 : w.isWord "UNDEF" = true
    · rw [if_pos h1] at hr
      rcases hq : reqIndex (w :: rest) 1 with e | t
      · rw [hq] at hr; cases hr
      · rw [hq] at hr
        simp only [exceptBind_ok] at hr
        rcases hf : reqFloat t with e | q
        · rw [hf] at hr; cases hr
        · rw [hf] at hr
          simp only [exceptBind_ok] at hr
          cases hr
          exact ⟨Or.inr ⟨w, hw, h1⟩, Or.inl rfl, Or.inl rfl, Or.inl rfl⟩
    · rw [if_neg h1] at hr
      by_cases h2 : w.isWord "XDEF" = true
      · rw [if_pos h2] at hr
        rcases ha : parseAxisLine (w :: rest) with e | ax
        · rw [ha] at hr; cases hr
        · rw [ha] at hr
          simp only [exceptBind_ok] at hr
          cases hr
          exact ⟨Or.inl rfl, Or.inr ⟨w, hw, h2⟩, Or.inl rfl, Or.inl rfl⟩
      · rw [if_neg h2] at hr
        by_cases h3 : w.isWord "YDEF" = true
        · rw [if_pos h3] at hr
          rcases ha : parseAxisLine (w :: rest) with e | ax
          · rw [ha] at hr; cases hr
          · rw [ha] at hr
            simp only [exceptBind_ok] at hr
            cases hr
            exact ⟨Or.inl rfl, Or.inl rfl, Or.inr ⟨w, hw, h3⟩, Or.inl rfl⟩
        · rw [if_neg h3] at hr
          by_cases h4 : w.isWord "TDEF" = true
          · rw [if_pos h4] at hr
            rcases hq : reqIndex (w :: rest) 3 with e | t
            · rw [hq] at hr; cases hr
            · rw [hq] at hr
              simp only [exceptBind_ok] at hr
              rcases hf : reqDate (t.asDate (obsType == .adjusted || obsType == .icdr))
                with e | dt
              · rw [hf] at hr; cases hr
              · rw [hf] at hr
                simp only [exceptBind_ok] at hr
                cases hr
                exact ⟨Or.inl rfl, Or.inl rfl, Or.inl rfl, Or.inl rfl⟩
          · rw [if_neg h4] at hr
            by_cases h5 : w.isWord "OPTIONS" = true
            · rw [if_pos h5] at hr
              rcases hq : reqIndex (w :: rest) 2 with e | t
              · rw [hq] at hr; cases hr
              · rw [hq] at hr
                simp only [exceptBind_ok] at hr
                cases hr
                exact ⟨Or.inl rfl, Or.inl rfl, Or.inl rfl, Or.inl rfl⟩
            · rw [if_neg h5] at hr
              by_cases h6 : w.isWord "cmorph" = true
              · rw [if_pos h6] at hr
                cases hr
                exact ⟨Or.inl rfl, Or.inl rfl, Or.inl rfl, Or.inl rfl⟩
              · rw [if_neg h6] at hr
                by_cases h7 : w.isWord "TITLE" = true
                · rw [if_pos h7] at hr
                  cases hr
                  exact ⟨Or.inl rfl, Or.inl rfl, Or.inl rfl, Or.inr ⟨w, hw, h7⟩⟩
                · rw [if_neg h7] at hr
                  cases hr
                  exact ⟨Or.inl rfl, Or.inl rfl, Or.inl rfl, Or.inl rfl⟩

/-- Whether some line of the text starts with the given keyword. -/
def hasKeyLine (k : String) (lines : List (List Token)) : Bool :=
  lines.any fun ws =>
    match ws.head? with
    | some w => w.isWord k
    | none => false

theorem foldDesc_no_key (obsType : ObsType) (k : String)
    (get : DescDict → Option α)
    (hget : ∀ d r words, procLine obsType d words = .ok r →
      (∀ w, words.head? = some w → w.isWord k = false) → get r = get d) :
    ∀ (lines : List (List Token)) (d r : DescDict),
      lines.foldlM (procLine obsType) d = .ok r →
      hasKeyLine k lines = false → get r = get d := by
  intro lines
  induction lines with
  | nil =>
    intro d r hfold _
    cases hfold
    rfl
  | cons ws rest ih =>
    intro d r hfold hkey
    rw [List.foldlM_cons] at hfold
    have hkey1 : ∀ w, ws.head? = some w → w.isWord k = false := by
      intro w hw
      by_contra hcontra
      have : hasKeyLine k (ws :: rest) = true := by
        unfold hasKeyLine
        rw [List.any_cons, hw]
        simp only [Bool.or_eq_true]
        left
        exact Bool.of_not_eq_false hcontra
      rw [this] at hkey
      cases hkey
    have hkeyrest : hasKeyLine k rest = false := by
      unfold hasKeyLine at hkey ⊢
      rw [List.any_cons] at hkey
      exact (Bool.or_eq_false_iff.mp hkey).2
    rcases hstep : procLine obsType d ws with e | d2
    · rw [hstep] at hfold; cases hfold
    · rw [hstep] at hfold
      simp only [exceptBind_ok] at hfold
      calc get r = get d2 := ih d2 r hfold hkeyrest
        _ = get d := hget d d2 ws hstep hkey1

/-- Missing keyword lines leave the corresponding `data_dict` entries
absent: the parse itself succeeds regardless. -/
theorem readDescription_missing (obsType : ObsType) (lines : List (List Token))
    (r : DescDict) (hok : readDescription obsType lines = .ok r) :
    (hasKeyLine "UNDEF" lines = false → r.undef = none) ∧
    (hasKeyLine "XDEF" lines = false → r.xdef = none) ∧
    (hasKeyLine "YDEF" lines = false → r.ydef = none) ∧
    (hasKeyLine "TITLE" lines = false → r.title = none) := by
  unfold readDescription at hok
  refine ⟨fun h => ?_, fun h => ?_, fun h => ?_, fun h => ?_⟩
  · exact foldDesc_no_key obsType "UNDEF" DescDict.undef
      (fun d r' words hr hne => by
        rcases (procLine_preserves obsType d r' words hr).1 with he | ⟨w, hw, hword⟩
        · exact he
        · rw [hne w hw] at hword; cases hword) lines {} r hok h
  · exact foldDesc_no_key obsType "XDEF" DescDict.xdef
      (fun d r' words hr hne => by
        rcases (procLine_preserves obsType d r' words hr).2.1 with he | ⟨w, hw, hword⟩
        · exact he
        · rw [hne w hw] at hword; cases hword) lines {} r hok h
  · exact foldDesc_no_key obsType "YDEF" DescDict.ydef
      (fun d r' words hr hne => by
        rcases (procLine_preserves obsType d r' words hr).2.2.1 with he | ⟨w, hw, hword⟩
        · exact he
        · rw [hne w hw] at hword; cases hword) lines {} r hok h
  · exact foldDesc_no_key obsType "TITLE" DescDict.title
      (fun d r' words hr hne => by
        rcases (procLine_preserves obsType d r' words hr).2.2.2 with he | ⟨w, hw, hword⟩
        · exact he
        · rw [hne w hw] at hword; cases hword) lines {} r hok h

/-! ## GridDecoder (source lines 286-305) -/

/-- `data[data == float(undef)] = np.NaN` (source lines 292/302):
`none` models the NaN sentinel. -/
def maskUndef (undef : ℚ) (data : List ℚ) : List (Option ℚ) :=
  data.map fun v => if v = undef then none else some v

/-- `np.reshape(data, (1, ydef_count, xdef_count))` (source lines
294/304) with the leading singleton time axis dropped (the source
immediately re-indexes it away at `data[:, :lat_len, :lon_len][0]`):
row-major rows; `ValueError` unless the element count matches the
declared geometry exactly. -/
def reshapeGrid (ycount xcount : ℕ) (data : List (Option ℚ)) :
    Except IngestErr (List (List (Option ℚ))) :=
  if data.length = ycount * xcount then
    .ok ((List.range ycount).map fun i => (data.drop (i * xcount)).take xcount)
  else .error .shapeMismatch

/-- The decode path of source lines 288-294: the file's values (already
interpreted in the declared byte order, see `RunInput.fileValues`) are
masked at the undef sentinel and reshaped to the descriptor geometry. -/
def gridDecode (undef : ℚ) (ycount xcount : ℕ) (data : List ℚ) :
    Except IngestErr (List (List (Option ℚ))) :=
  reshapeGrid ycount xcount (maskUndef undef data)

/-- `data[:, : lat_len, : lon_len]` (source lines 296/305): numpy
slicing clamps, so this truncates and never fails. -/
def cropGrid (latLen lonLen : ℕ) (g : List (List (Option ℚ))) :
    List (List (Option ℚ)) :=
  (g.take latLen).map (·.take lonLen)

/-! ## ArchiveWriter (source lines 225-266, 296) -/

/-- The persistent NetCDF output: dimensions fixed at creation,
coordinate variables, and the `prcp[time][lat][lon]` data variable
(`none` = NaN fill). -/
structure Archive where
  latDim : ℕ := 0
  lonDim : ℕ := 0
  title : List Token := []
  timeVals : List ℤ := []
  latVals : List ℚ := []
  lonVals : List ℚ := []
  prcp : List (List (List (Option ℚ))) := []
  deriving DecidableEq, Repr

inductive FileMode where
  | write
  | read
  | append
  deriving DecidableEq, Repr

/-- Names of the files present in the work directory plus the daily
file's decoded element values, and the orchestrator's arguments
(source lines 174-180). -/
structure RunInput where
  descLines : List (List Token)
  date : CDate
  obsType : ObsType
  downloadFiles : Bool
  removeFiles : Bool
  conusOnly : Bool
  /-- File names in `cmorph_dir` (consulted by `glob` when downloads
      are disabled, source line 282). -/
  dirFiles : List String
  /-- The element values of the daily file interpreted in the
      descriptor's declared byte order; the `byteswap()` of source line
      290 is the identity on this value-level abstraction (modelling a
      bit-level float byte swap is outside a rational value model). -/
  fileValues : List ℚ

/-- `netCDF4.Dataset(path, mode)`: mode `'w'` truncates, creating a
fresh empty dataset regardless of any pre-existing content. -/
def datasetOpen (mode : FileMode) (prior : Option Archive) : Archive :=
  match mode with
  | .write => {}
  | .read => prior.getD {}
  | .append => prior.getD {}

/-- The literal mode `'w'` of source line 225, chosen independently of
every flag. -/
def archiveOpenMode (_inp : RunInput) : FileMode := .write

/-- NC_FILL_INT: the default fill value a netCDF `'i4'` variable (the
`time` coordinate, source line 236) reads back at an index that was
never assigned. -/
def ncFillInt : ℤ := -2147483647

/-- `time_variable[:] = np.array(days_since)` (source line 254): the
right-hand side is a 0-d array, so the full-slice assignment broadcasts
the scalar over the CURRENT extent of the variable's unlimited `time`
dimension — every entry that already exists is overwritten, and none is
created.  At line 254 nothing has yet been written along `time`, so the
extent is zero and the assignment writes nothing. -/
def timeSliceBroadcast (current : List ℤ) (v : ℤ) : List ℤ :=
  current.map fun _ => v

/-- `data_variable[0, :, :] = cropped` (source lines 296/305): the
assignment target has spatial shape `(latDim, lonDim)` and grows the
unbounded time dimension to one slice; the `time` coordinate variable
shares that dimension, so any of its entries within the grown extent
that was never assigned reads back as the `'i4'` fill value
`ncFillInt`.  The model requires the exact spatial shape (numpy
broadcasting of degenerate length-1 axes is not modelled; no CMORPH
grid has a degenerate axis). -/
def insertSlice (arch : Archive) (g : List (List (Option ℚ))) :
    Except IngestErr Archive :=
  if g.length = arch.latDim ∧ ∀ row ∈ g, row.length = arch.lonDim then
    .ok { arch with
            prcp := [g]
            timeVals := arch.timeVals ++
              List.replicate (1 - arch.timeVals.length) ncFillInt }
  else .error .dimensionMismatch

/-! ## IngestOrchestrator (source lines 174-310) -/

inductive RunStatus where
  | done
  | failed (e : IngestErr)
  /-- The `_frange` loop would not terminate (negative declared count
      together with negative increment). -/
  | divergent
  deriving DecidableEq, Repr

structure RunResult where
  status : RunStatus
  /-- Whether `netCDF4.Dataset(netcdf_file, 'w')` (source line 225) was
      reached. -/
  opened : Bool
  /-- The file content at `netcdf_file` after the run. -/
  onDisk : Option Archive
  deriving Repr

/-- `str(month).zfill(2)`. -/
def zfill2 (n : ℕ) : String :=
  if n < 10 then "0" ++ toString n else toString n

/-- The glob pattern stem of source lines 275-281: the observation-type
file-name stem plus `str(year) + str(month).zfill(2)`.  The trailing
`*` of the pattern matches any suffix — the DAY is not part of the
pattern. -/
def filePatternStem (obsType : ObsType) (year month : ℕ) : String :=
  (match obsType with
   | .raw => "CMORPH_V0.x_RAW_0.25deg-DLY_00Z_"
   | .adjusted => "CMORPH_V1.0_ADJ_0.25deg-DLY_00Z_"
   | .icdr => "CMORPH_V0.x_ADJ_0.25deg-DLY_00Z_")
    ++ toString year ++ zfill2 month

/-- `glob(filename_pattern)` over the work directory's file names
(source line 282). -/
def localLookup (dirFiles : List String) (obsType : ObsType) (year month : ℕ) :
    List String :=
  dirFiles.filter fun f =>
    (filePatternStem obsType year month).toList.isPrefixOf f.toList

/-- The decode-and-insert tail of the run (source lines 286-305), on
the single-file (download) path: byte-order key (line 289, binary path
only), undef key (lines 292/302), decode, crop, slice assignment. -/
def runDecodeInsert (inp : RunInput) (arch : Archive) (dd : DescDict)
    (latLen lonLen ycount xcount : ℕ) : RunResult :=
  if inp.obsType ≠ .icdr ∧ dd.littleEndian = none then
    ⟨.failed (.keyError "little_endian"), true, some arch⟩
  else
    match dd.undef with
    | none => ⟨.failed (.keyError "undef"), true, some arch⟩
    | some undef =>
      match gridDecode undef ycount xcount inp.fileValues with
      | .error e => ⟨.failed e, true, some arch⟩
      | .ok grid =>
        match insertSlice arch (cropGrid latLen lonLen grid) with
        | .error e => ⟨.failed e, true, some arch⟩
        | .ok arch2 => ⟨.done, true, some arch2⟩

/-- The archive phase (source lines 225-310): open in mode `'w'`,
create dimensions, set title (KeyError when the TITLE line was absent),
assign the time/lat/lon coordinate variables (the `time` assignment at
line 254 broadcasts a 0-d array over the still-empty unlimited `time`
dimension, see `timeSliceBroadcast`), locate the daily file
(download collaborator, or the `glob` lookup whose result — a Python
list — is then passed to `np.fromfile`/`netCDF4.Dataset`/`os.remove`,
all of which reject a list), then decode and insert. -/
def runArchivePhase (inp : RunInput) (prior : Option Archive) (dd : DescDict)
    (latLen lonLen ycount xcount : ℕ) (latSel lonSel : List ℚ) : RunResult :=
  let arch0 := datasetOpen (archiveOpenMode inp) prior
  let arch1 := { arch0 with latDim := latSel.length, lonDim := lonSel.length }
  match dd.title with
  | none => ⟨.failed (.keyError "title"), true, some arch1⟩
  | some t =>
    let arch3 : Archive :=
      { arch1 with
          title := t
          timeVals := timeSliceBroadcast arch1.timeVals (daysSince1900 inp.date)
          latVals := latSel
          lonVals := lonSel }
    if inp.downloadFiles then
      runDecodeInsert inp arch3 dd latLen lonLen ycount xcount
    else
      match localLookup inp.dirFiles inp.obsType inp.date.year inp.date.month with
      | [] => ⟨.failed .indexError, true, some arch3⟩
      | _ :: _ => ⟨.failed .typeError, true, some arch3⟩

/-- Source lines 208-218: the optional CONUS clip of the axis value
lists; indices from `_find_closest`, the `+ 1` mirrors lines 212/214,
and `lat_values[lo : hi]` is drop-then-take (Python slices clamp). -/
def conusSel (conusOnly : Bool) (latValues lonValues : List ℚ) :
    Except IngestErr (List ℚ × List ℚ) :=
  if conusOnly then do
    let latLo ← findClosest latValues 23
    let latHi ← findClosest latValues 50
    let lonLo ← findClosest lonValues 232
    let lonHi ← findClosest lonValues 295
    pure ((latValues.drop latLo).take (latHi + 1 - latLo),
          (lonValues.drop lonLo).take (lonHi + 1 - lonLo))
  else pure (latValues, lonValues)

/-- `ingest_cmorph_to_netcdf` (source lines 174-310), with `prior` the
pre-existing content of the output path. -/
def runIngest (inp : RunInput) (prior : Option Archive) : RunResult :=
  match readDescription inp.obsType inp.descLines with
  | .error _ => ⟨.failed .malformedDescriptor, false, prior⟩
  | .ok dd =>
    match dd.ydef with
    | none => ⟨.failed (.keyError "ydef_start"), false, prior⟩
    | some ydef =>
      match dd.xdef with
      | none => ⟨.failed (.keyError "xdef_start"), false, prior⟩
      | some xdef =>
        match axisValues ydef.count ydef.start ydef.increment with
        | none => ⟨.divergent, false, prior⟩
        | some latValues =>
          match axisValues xdef.count xdef.start xdef.increment with
          | none => ⟨.divergent, false, prior⟩
          | some lonValues =>
            match conusSel inp.conusOnly latValues lonValues with
            | .error e => ⟨.failed e, false, prior⟩
            | .ok (latSel, lonSel) =>
              runArchivePhase inp prior dd latValues.length lonValues.length
                ydef.count.toNat xdef.count.toNat latSel lonSel


theorem runDecodeInsert_done (inp : RunInput) (arch : Archive) (dd : DescDict)
    (latLen lonLen y x : ℕ)
    (h : (runDecodeInsert inp arch dd latLen lonLen y x).status = .done) :
    ∃ undef grid,
      dd.undef = some undef ∧
      gridDecode undef y x inp.fileValues = .ok grid ∧
      (runDecodeInsert inp arch dd latLen lonLen y x).onDisk =
        some { arch with
                 prcp := [cropGrid latLen lonLen grid]
                 timeVals := arch.timeVals ++
                   List.replicate (1 - arch.timeVals.length) ncFillInt } := by
  unfold runDecodeInsert at h ⊢
  by_cases hle : inp.obsType ≠ .icdr ∧ dd.littleEndian = none
  · simp [hle] at h
  · simp only [hle, if_false] at h ⊢
    rcases hund : dd.undef with - | undef
    · simp [hund] at h
    · simp only [hund] at h ⊢
      rcases hdec : gridDecode undef y x inp.fileValues with e | grid
      · simp [hdec] at h
      · simp only [hdec] at h ⊢
        rcases hins : insertSlice arch (cropGrid latLen lonLen grid) with e | arch2
        · simp [hins] at h
        · simp only [hins]
          refine ⟨undef, grid, rfl, hdec, ?_⟩
          unfold insertSlice at hins
          by_cases hc : ((cropGrid latLen lonLen grid).length = arch.latDim ∧
              ∀ row ∈ cropGrid latLen lonLen grid, row.length = arch.lonDim)
          · rw [if_pos hc] at hins
            cases hins
            rfl
          · rw [if_neg hc] at hins
            cases hins

theorem runArchivePhase_done (inp : RunInput) (p : Option Archive) (dd : DescDict)
    (latLen lonLen y x : ℕ) (latSel lonSel : List ℚ)
    (h : (runArchivePhase inp p dd latLen lonLen y x latSel lonSel).status = .done) :
    ∃ t undef grid,
      dd.title = some t ∧ dd.undef = some undef ∧ inp.downloadFiles = true ∧
      gridDecode undef y x inp.fileValues = .ok grid ∧
      (runArchivePhase inp p dd latLen lonLen y x latSel lonSel).onDisk =
        some { latDim := latSel.length, lonDim := lonSel.length, title := t
               timeVals := [ncFillInt]
               latVals := latSel, lonVals := lonSel
               prcp := [cropGrid latLen lonLen grid] } := by
  unfold runArchivePhase at h ⊢
  rcases ht : dd.title with - | t
  · simp [ht] at h
  · simp only [ht] at h ⊢
    rcases hdl : inp.downloadFiles with - | -
    · simp only [hdl, Bool.false_eq_true, if_false] at h ⊢
      rcases hll : localLookup inp.dirFiles inp.obsType inp.date.year inp.date.month
        with - | ⟨f, fs⟩
      · simp [hll] at h
      · simp [hll] at h
    · simp only [hdl, if_true] at h ⊢
      obtain ⟨undef, grid, hund, hdec, hdisk⟩ :=
        runDecodeInsert_done _ _ _ _ _ _ _ h
      refine ⟨t, undef, grid, by trivial, hund, by trivial, hdec, ?_⟩
      rw [hdisk]
      rfl

theorem runIngest_done (inp : RunInput) (p : Option Archive)
    (h : (runIngest inp p).status = .done) :
    ∃ dd ydef xdef latValues lonValues latSel lonSel t undef grid,
      readDescription inp.obsType inp.descLines = .ok dd ∧
      dd.ydef = some ydef ∧ dd.xdef = some xdef ∧
      dd.title = some t ∧ dd.undef = some undef ∧
      axisValues ydef.count ydef.start ydef.increment = some latValues ∧
      axisValues xdef.count xdef.start xdef.increment = some lonValues ∧
      conusSel inp.conusOnly latValues lonValues = .ok (latSel, lonSel) ∧
      inp.downloadFiles = true ∧
      gridDecode undef ydef.count.toNat xdef.count.toNat inp.fileValues = .ok grid ∧
      (runIngest inp p).onDisk = some
        { latDim := latSel.length, lonDim := lonSel.length, title := t
          timeVals := [ncFillInt]
          latVals := latSel, lonVals := lonSel
          prcp := [cropGrid latValues.length lonValues.length grid] } := by
  unfold runIngest at h ⊢
  rcases hrd : readDescription inp.obsType inp.descLines with e | dd
  · simp [hrd] at h
  · simp only [hrd] at h ⊢
    rcases hy : dd.ydef with - | ydef
    · simp [hy] at h
    · simp only [hy] at h ⊢
      rcases hx : dd.xdef with - | xdef
      · simp [hx] at h
      · simp only [hx] at h ⊢
        rcases hla : axisValues ydef.count ydef.start ydef.increment with - | latValues
        · simp [hla] at h
        · simp only [hla] at h ⊢
          rcases hlo : axisValues xdef.count xdef.start xdef.increment with - | lonValues
          · simp [hlo] at h
          · simp only [hlo] at h ⊢
            rcases hsel : conusSel inp.conusOnly latValues lonValues
              with e | ⟨latSel, lonSel⟩
            · simp [hsel] at h
            · simp only [hsel] at h ⊢
              obtain ⟨t, undef, grid, ht, hund, hdl, hdec, hdisk⟩ :=
                runArchivePhase_done _ _ _ _ _ _ _ _ _ h
              exact ⟨dd, ydef, xdef, latValues, lonValues, latSel, lonSel, t, undef,
                grid, rfl, hy, hx, ht, hund, hla, hlo, hsel, hdl, hdec, hdisk⟩

/-- The archive phase never reads the prior file content: the open is
mode `'w'`. -/
theorem runArchivePhase_prior (inp : RunInput) (p1 p2 : Option Archive)
    (dd : DescDict) (latLen lonLen y x : ℕ) (latSel lonSel : List ℚ) :
    runArchivePhase inp p1 dd latLen lonLen y x latSel lonSel =
      runArchivePhase inp p2 dd latLen lonLen y x latSel lonSel := rfl

/-! ## Claim C10 -/

/-- A pre-existing archive distinguishable from a fresh one. -/
def nonEmptyArchive : Archive := { latDim := 7, timeVals := [3] }

/-- An input whose descriptor has a blank first line, so the run fails
before reaching archive creation. -/
def badDescInput : RunInput :=
  { descLines := [[]]
    date := ⟨2019, 6, 15⟩
    obsType := .raw
    downloadFiles := true
    removeFiles := false
    conusOnly := false
    dirFiles := []
    fileValues := [] }

/-- C10 counterexample: a run that fails before archive creation (here
the descriptor parse raises on a blank line) leaves a pre-existing
file at `netcdf_file` UNTOUCHED — it is neither truncated nor
replaced, contradicting "for every run any pre-existing file at
netcdf_file is truncated and replaced". -/
theorem C10_counterexample :
    (runIngest badDescInput (some nonEmptyArchive)).opened = false ∧
    (runIngest badDescInput (some nonEmptyArchive)).onDisk = some nonEmptyArchive ∧
    nonEmptyArchive ≠ ({} : Archive) := by
  refine ⟨rfl, rfl, ?_⟩
  intro hcontra
  cases hcontra

/-- C10 amended: the archive open at source line 225 is unconditionally
mode 'w' (regardless of the download/cleanup/CONUS flags), so every
run that REACHES archive creation truncates the pre-existing file and
rebuilds the archive from scratch — the run's outcome and the
resulting file content are independent of whatever was at the path
before, and the archive is never appended to.  A run that fails before
archive creation leaves a pre-existing file unchanged. -/
theorem C10_amended (inp : RunInput) (p1 p2 : Option Archive) :
    archiveOpenMode inp = .write ∧
    (runIngest inp p1).status = (runIngest inp p2).status ∧
    (runIngest inp p1).opened = (runIngest inp p2).opened ∧
    ((runIngest inp p1).opened = true →
      (runIngest inp p1).onDisk = (runIngest inp p2).onDisk) := by
  refine ⟨rfl, ?_⟩
  unfold runIngest
  rcases hrd : readDescription inp.obsType inp.descLines with e | dd
  · simp only [hrd]
    exact ⟨by trivial, by trivial, by simp⟩
  · simp only [hrd]
    rcases hy : dd.ydef with - | ydef
    · simp only [hy]
      exact ⟨by trivial, by trivial, by simp⟩
    · simp only [hy]
      rcases hx : dd.xdef with - | xdef
      · simp only [hx]
        exact ⟨by trivial, by trivial, by simp⟩
      · simp only [hx]
        rcases hla : axisValues ydef.count ydef.start ydef.increment with - | latValues
        · simp only [hla]
          exact ⟨by trivial, by trivial, by simp⟩
        · simp only [hla]
          rcases hlo : axisValues xdef.count xdef.start xdef.increment with - | lonValues
          · simp only [hlo]
            exact ⟨by trivial, by trivial, by simp⟩
          · simp only [hlo]
            rcases hsel : conusSel inp.conusOnly latValues lonValues
              with e | ⟨latSel, lonSel⟩
            · simp only [hsel]
              exact ⟨by trivial, by trivial, by simp⟩
            · simp only [hsel]
              rw [runArchivePhase_prior inp p1 p2]
              exact ⟨by trivial, by trivial, fun _ => by trivial⟩

/-! ## Claims C3 and C8 -/

/-- C3: in a successful decode, the element at row `i`, column `j` of
the grid is the NaN sentinel (`none`) exactly when the input element at
flat index `i*xcount + j` equals the undef value, and otherwise equals
that input element unchanged. -/
theorem C3_decode_undef_mask (undef : ℚ) (y x : ℕ) (data : List ℚ)
    (grid : List (List (Option ℚ))) (h : gridDecode undef y x data = .ok grid)
    (i j : ℕ) (hi : i < y) (hj : j < x) :
    (grid.getD i []).getD j (some 0) =
      if data.getD (i * x + j) 0 = undef then none
      else some (data.getD (i * x + j) 0) := by
  have hmask : (maskUndef undef data).length = data.length := by simp [maskUndef]
  unfold gridDecode reshapeGrid at h
  by_cases hlen : (maskUndef undef data).length = y * x
  · rw [if_pos hlen] at h
    cases h
    have hdlen : data.length = y * x := by rw [← hmask]; exact hlen
    have hidx : i * x + j < data.length := by
      have h1 : (i + 1) * x ≤ y * x := Nat.mul_le_mul_right x hi
      have h2 : (i + 1) * x = i * x + x := by ring
      omega
    have hrow : ((List.range y).map fun i =>
        ((maskUndef undef data).drop (i * x)).take x).getD i []
        = ((maskUndef undef data).drop (i * x)).take x := by
      rw [List.getD_eq_getElem?_getD, List.getElem?_map, List.getElem?_range hi]
      rfl
    rw [hrow]
    rw [List.getD_eq_getElem?_getD, List.getElem?_take_of_lt hj, List.getElem?_drop]
    unfold maskUndef
    rw [List.getElem?_map, List.getElem?_eq_getElem hidx]
    simp only [Option.map_some', Option.getD_some]
    rw [List.getD_eq_getElem?_getD, List.getElem?_eq_getElem hidx, Option.getD_some]
  · rw [if_neg hlen] at h
    cases h

/-- C3 witness: the claim's example — `UNDEF -999.0`, a 3×4 grid, and a
12-element buffer whose element at flat index 5 is -999.0 — decodes
with the single NaN at row 1, column 1, all other elements equal to
the input. -/
theorem C3_witness :
    ∃ grid,
      gridDecode (-999) 3 4 [0, 1, 2, 3, 4, -999, 6, 7, 8, 9, 10, 11] = .ok grid ∧
      (grid.getD 1 []).getD 1 (some 0) = none ∧
      (grid.getD 0 []).getD 0 (some 0) = some 0 ∧
      (grid.getD 1 []).getD 2 (some 0) = some 6 ∧
      (grid.getD 2 []).getD 3 (some 0) = some 11 := by
  have hdec : gridDecode (-999) 3 4 [0, 1, 2, 3, 4, -999, 6, 7, 8, 9, 10, 11] =
      .ok [[some 0, some 1, some 2, some 3],
           [some 4, none, some 6, some 7],
           [some 8, some 9, some 10, some 11]] := by decide
  refine ⟨_, hdec, ?_, ?_, ?_, ?_⟩
  · rw [C3_decode_undef_mask (-999) 3 4 _ _ hdec 1 1 (by omega) (by omega)]
    decide
  · rw [C3_decode_undef_mask (-999) 3 4 _ _ hdec 0 0 (by omega) (by omega)]
    decide
  · rw [C3_decode_undef_mask (-999) 3 4 _ _ hdec 1 2 (by omega) (by omega)]
    decide
  · rw [C3_decode_undef_mask (-999) 3 4 _ _ hdec 2 3 (by omega) (by omega)]
    decide

/-- C8: decoding succeeds with a grid of shape `(ycount, xcount)` if
and only if the buffer's element count equals `ycount * xcount`; any
mismatch fails with ShapeMismatch (`ValueError` from `np.reshape`)
rather than reshaping best-effort. -/
theorem C8_decode_shape (undef : ℚ) (y x : ℕ) (data : List ℚ) :
    ((∃ g, gridDecode undef y x data = .ok g ∧ g.length = y ∧
        ∀ row ∈ g, row.length = x) ↔ data.length = y * x) ∧
    (data.length ≠ y * x → gridDecode undef y x data = .error .shapeMismatch) := by
  have hmask : (maskUndef undef data).length = data.length := by simp [maskUndef]
  constructor
  · constructor
    · rintro ⟨g, hg, -, -⟩
      unfold gridDecode reshapeGrid at hg
      by_cases hlen : (maskUndef undef data).length = y * x
      · rw [← hmask]; exact hlen
      · rw [if_neg hlen] at hg; cases hg
    · intro hlen
      have hgd : gridDecode undef y x data =
          .ok ((List.range y).map fun i =>
            ((maskUndef undef data).drop (i * x)).take x) := by
        unfold gridDecode reshapeGrid
        rw [if_pos (by rw [hmask]; exact hlen)]
      refine ⟨_, hgd, by simp, ?_⟩
      intro row hrow
      simp only [List.mem_map, List.mem_range] at hrow
      obtain ⟨i, hi, hrow⟩ := hrow
      subst hrow
      rw [List.length_take, List.length_drop, hmask, hlen]
      have h1 : (i + 1) * x ≤ y * x := Nat.mul_le_mul_right x hi
      have h2 : (i + 1) * x = i * x + x := by ring
      omega
  · intro hne
    unfold gridDecode reshapeGrid
    rw [if_neg (by rw [hmask]; exact hne)]

/-- C8 witness: a 3-element buffer against a 2×2 geometry fails with
ShapeMismatch; the 12-element buffer against 3×4 succeeds with the
declared shape. -/
theorem C8_witness :
    gridDecode (-999) 2 2 [1, 2, 3] = .error .shapeMismatch ∧
    ∃ g, gridDecode (-999) 3 4 [0, 1, 2, 3, 4, -999, 6, 7, 8, 9, 10, 11] = .ok g ∧
      g.length = 3 ∧ ∀ row ∈ g, row.length = 4 := by
  constructor
  · exact (C8_decode_shape (-999) 2 2 [1, 2, 3]).2 (by norm_num)
  · exact (C8_decode_shape (-999) 3 4 _).1.mpr (by norm_num)

/-! ## Claims C9, C4 and C5 -/

theorem Token.isWord_unique {w : Token} {k1 k2 : String}
    (h : w.isWord k1 = true) (hne : k1 ≠ k2) : w.isWord k2 = false := by
  cases w with
  | int n => rfl
  | float q => rfl
  | str s =>
    simp only [Token.isWord, beq_iff_eq] at h
    subst h
    simpa [Token.isWord] using hne

/-- An erroring line makes the whole parse error (the exception aborts
the `for` loop). -/
theorem readDescription_line_error (obsType : ObsType)
    (pre post : List (List Token)) (line : List Token)
    (h : ∀ d : DescDict, ∃ e, procLine obsType d line = .error e) :
    ∃ e, readDescription obsType (pre ++ line :: post) = .error e := by
  unfold readDescription
  rw [List.foldlM_append]
  rcases hpre : pre.foldlM (procLine obsType) ({} : DescDict) with e | d
  · exact ⟨e, rfl⟩
  · obtain ⟨e, he⟩ := h d
    exact ⟨e, by simp only [exceptBind_ok, List.foldlM_cons, he, exceptBind_error]⟩

theorem procLine_undef_short (obsType : ObsType) (d : DescDict) (w : Token)
    (hw : w.isWord "UNDEF" = true) :
    procLine obsType d [w] = .error .indexError := by
  show procLineW obsType d w [w] = .error .indexError
  unfold procLineW
  rw [if_pos hw]
  rfl

theorem procLine_xdef_short (obsType : ObsType) (d : DescDict) (w : Token)
    (hw : w.isWord "XDEF" = true) :
    procLine obsType d [w] = .error .indexError := by
  show procLineW obsType d w [w] = .error .indexError
  unfold procLineW
  rw [if_pos hw, Token.isWord_unique hw (by decide)]
  rfl

theorem procLine_ydef_short (obsType : ObsType) (d : DescDict) (w : Token)
    (hw : w.isWord "YDEF" = true) :
    procLine obsType d [w] = .error .indexError := by
  show procLineW obsType d w [w] = .error .indexError
  unfold procLineW
  rw [if_pos hw, Token.isWord_unique hw (by decide),
    Token.isWord_unique hw (by decide)]
  rfl

theorem procLine_undef_badnum (obsType : ObsType) (d : DescDict) (w t : Token)
    (rest : List Token) (hw : w.isWord "UNDEF" = true) (ht : t.asFloat = none) :
    procLine obsType d (w :: t :: rest) = .error .valueError := by
  show procLineW obsType d w (w :: t :: rest) = .error .valueError
  unfold procLineW
  rw [if_pos hw]
  have h1 : reqIndex (w :: t :: rest) 1 = .ok t := by simp [reqIndex]
  have h2 : reqFloat t = .error .valueError := by
    unfold reqFloat
    rw [ht]
  simp only [h1, exceptBind_ok, h2, exceptBind_error]

/-- C9 counterexample: a blank (whitespace-only) descriptor line makes
the parse FAIL (`IndexError` on `words[0]`) rather than being ignored;
without the blank line the same text parses fine, so the blank line
alone changed the outcome. -/
theorem C9_counterexample :
    readDescription .raw [[], [Token.str "UNDEF", Token.float (-999)]] =
      .error .indexError ∧
    readDescription .raw [[Token.str "UNDEF", Token.float (-999)]] =
      .ok { undef := some (-999) } := by
  constructor <;> decide

/-- C9 amended: every NONEMPTY line whose leading token is not one of
the recognized keys (UNDEF, XDEF, YDEF, TDEF, OPTIONS, 'cmorph',
TITLE) is ignored — the parse does not fail on it and the result is
unaffected by its presence; a blank or whitespace-only line, however,
makes the parse fail (IndexError on `words[0]`). -/
theorem C9_amended (obsType : ObsType) (pre post : List (List Token))
    (line : List Token) :
    (lineIgnored line = true →
      readDescription obsType (pre ++ line :: post) =
        readDescription obsType (pre ++ post)) ∧
    ∃ e, readDescription obsType (pre ++ [] :: post) = .error e := by
  constructor
  · intro h
    unfold readDescription
    rw [List.foldlM_append, List.foldlM_append]
    rcases hpre : pre.foldlM (procLine obsType) ({} : DescDict) with e | d
    · rfl
    · simp only [exceptBind_ok, List.foldlM_cons, procLine_ignored obsType d line h]
  · exact readDescription_line_error obsType pre post []
      (fun d => ⟨.indexError, rfl⟩)

/-- C9 witness: the amended statement applied to a concrete
unrecognized `ZDEF` line and to a concrete blank line. -/
theorem C9_witness :
    readDescription .raw
        [[Token.str "ZDEF", Token.int 1], [Token.str "UNDEF", Token.float (-999)]] =
      readDescription .raw [[Token.str "UNDEF", Token.float (-999)]] ∧
    ∃ e, readDescription .raw [[]] = .error e := by
  have h1 := C9_amended .raw [] [[Token.str "UNDEF", Token.float (-999)]]
    [Token.str "ZDEF", Token.int 1]
  have h2 := C9_amended .raw [] [] []
  exact ⟨h1.1 (by decide), h2.2⟩

/-- C4 counterexample: a descriptor text with NO UNDEF, XDEF or YDEF
line parses SUCCESSFULLY — `_read_description` builds a partial
dictionary and returns it, rather than failing with
MalformedDescriptor as the claim states; nothing defaults the title
either (the returned record simply lacks it). -/
theorem C4_counterexample :
    readDescription .raw
        [[Token.str "DSET", Token.str "x"],
         [Token.str "TDEF", Token.int 99999, Token.str "LINEAR",
          Token.str "01jan1998", Token.str "1dy"]] =
      .ok { startDate := some ⟨1998, 1, 1⟩ } := by
  decide

/-- A descriptor without a TITLE line (UNDEF/XDEF/YDEF all present),
download path, well-formed data. -/
def noTitleInput : RunInput :=
  { descLines :=
      [[Token.str "OPTIONS", Token.str "template", Token.str "little_endian"],
       [Token.str "UNDEF", Token.float (-999)],
       [Token.str "XDEF", Token.int 2, Token.str "LINEAR", Token.int 0, Token.int 1],
       [Token.str "YDEF", Token.int 2, Token.str "LINEAR", Token.int 0, Token.int 1]]
    date := ⟨1900, 1, 2⟩
    obsType := .raw
    downloadFiles := true
    removeFiles := false
    conusOnly := false
    dirFiles := []
    fileValues := [1, 2, 3, 4] }

/-- C4 amended: when no UNDEF, XDEF or YDEF line is present the
descriptor parse itself does NOT fail — the run fails later (KeyError
when the orchestrator reads the absent dictionary entry); the TITLE
line is likewise mandatory for a successful run (a missing TITLE
raises KeyError when the archive metadata is written, rather than
defaulting to empty; the variable description alone is genuinely
optional — it is never read).  A present UNDEF/XDEF/YDEF line whose
required token is missing, or whose value token is non-numeric, does
fail the parse immediately (IndexError / ValueError — the spec's
MalformedDescriptor). -/
theorem C4_amended :
    (∀ (inp : RunInput) (p : Option Archive),
      (hasKeyLine "UNDEF" inp.descLines = false ∨
       hasKeyLine "XDEF" inp.descLines = false ∨
       hasKeyLine "YDEF" inp.descLines = false ∨
       hasKeyLine "TITLE" inp.descLines = false) →
      (runIngest inp p).status ≠ .done) ∧
    (∀ (obsType : ObsType) (pre post : List (List Token)) (w : Token),
      (w.isWord "UNDEF" = true ∨ w.isWord "XDEF" = true ∨
        w.isWord "YDEF" = true) →
      ∃ e, readDescription obsType (pre ++ [w] :: post) = .error e) ∧
    (∀ (obsType : ObsType) (pre post : List (List Token)) (w t : Token)
        (rest : List Token),
      w.isWord "UNDEF" = true → t.asFloat = none →
      ∃ e, readDescription obsType (pre ++ (w :: t :: rest) :: post) = .error e) := by
  refine ⟨?_, ?_, ?_⟩
  · intro inp p hmiss hdone
    obtain ⟨dd, ydef, xdef, latValues, lonValues, latSel, lonSel, t, undef, grid,
      hrd, hy, hx, ht, hund, -, -, -, -, -, -⟩ := runIngest_done inp p hdone
    have hm := readDescription_missing inp.obsType inp.descLines dd hrd
    rcases hmiss with h | h | h | h
    · rw [hm.1 h] at hund; cases hund
    · rw [hm.2.1 h] at hx; cases hx
    · rw [hm.2.2.1 h] at hy; cases hy
    · rw [hm.2.2.2 h] at ht; cases ht
  · intro obsType pre post w hw
    apply readDescription_line_error
    intro d
    rcases hw with h | h | h
    · exact ⟨.indexError, procLine_undef_short obsType d w h⟩
    · exact ⟨.indexError, procLine_xdef_short obsType d w h⟩
    · exact ⟨.indexError, procLine_ydef_short obsType d w h⟩
  · intro obsType pre post w t rest hw ht
    exact readDescription_line_error obsType pre post _
      (fun d => ⟨.valueError, procLine_undef_badnum obsType d w t rest hw ht⟩)

/-- C4 witness: the amended statement at concrete inputs — a full
descriptor lacking only TITLE makes the run fail, and a bare `UNDEF`
line (no value token) fails the parse. -/
theorem C4_witness :
    (runIngest noTitleInput none).status ≠ .done ∧
    ∃ e, readDescription .raw ([] ++ [Token.str "UNDEF"] :: []) = .error e :=
  ⟨C4_amended.1 noTitleInput none (Or.inr (Or.inr (Or.inr (by decide)))),
   C4_amended.2.1 .raw [] [] (Token.str "UNDEF") (Or.inl (by decide))⟩

/-- C5 (code bug): with downloads disabled, the glob pattern of source
lines 275-282 carries only the year and month — the day is covered by
the trailing wildcard — so it matches every file of the month (here
both the requested 2019-06-15 file and the 2019-06-16 file); the
resulting Python LIST is then handed to
`np.fromfile`/`netCDF4.Dataset`/`os.remove`, which reject a list, so
the download-disabled path never completes a run at all. -/
theorem C5_local_lookup :
    localLookup
        ["CMORPH_V0.x_RAW_0.25deg-DLY_00Z_20190615",
         "CMORPH_V0.x_RAW_0.25deg-DLY_00Z_20190616"] .raw 2019 6 =
      ["CMORPH_V0.x_RAW_0.25deg-DLY_00Z_20190615",
       "CMORPH_V0.x_RAW_0.25deg-DLY_00Z_20190616"] ∧
    ∀ (inp : RunInput) (p : Option Archive),
      inp.downloadFiles = false → (runIngest inp p).status ≠ .done := by
  constructor
  · decide
  · intro inp p hdl hdone
    obtain ⟨dd, ydef, xdef, latValues, lonValues, latSel, lonSel, t, undef, grid,
      -, -, -, -, -, -, -, -, hdltrue, -, -⟩ := runIngest_done inp p hdone
    rw [hdl] at hdltrue
    cases hdltrue

/-- A download-disabled input. -/
def noDownloadInput : RunInput :=
  { noTitleInput with
      descLines := noTitleInput.descLines ++ [[Token.str "TITLE", Token.str "t"]]
      downloadFiles := false
      dirFiles := ["CMORPH_V0.x_RAW_0.25deg-DLY_00Z_19000102"] }

/-- C5 witness: the run-level statement applied at a concrete
download-disabled input whose work directory even contains the
requested day's file. -/
theorem C5_witness : (runIngest noDownloadInput none).status ≠ .done :=
  C5_local_lookup.2 noDownloadInput none rfl

/-! ## Single-step parse evaluation lemmas

Rational literals such as `1/8` do not reduce definitionally, so
concrete descriptor parses are evaluated by these symbolic single-line
lemmas instead of by brute-force evaluation. -/

theorem readDescription_cons (obsType : ObsType) (line : List Token)
    (rest : List (List Token)) (d d2 : DescDict)
    (h : procLine obsType d line = .ok d2) :
    (line :: rest).foldlM (procLine obsType) d =
      rest.foldlM (procLine obsType) d2 := by
  rw [List.foldlM_cons, h, exceptBind_ok]

theorem procLine_undef_ok (obsType : ObsType) (d : DescDict) (w t : Token)
    (rest : List Token) (q : ℚ) (hw : w.isWord "UNDEF" = true)
    (ht : t.asFloat = some q) :
    procLine obsType d (w :: t :: rest) = .ok { d with undef := some q } := by
  show procLineW obsType d w (w :: t :: rest) = _
  unfold procLineW
  rw [if_pos hw]
  have h1 : reqIndex (w :: t :: rest) 1 = .ok t := by simp [reqIndex]
  have h2 : reqFloat t = .ok q := by unfold reqFloat; rw [ht]
  simp only [h1, h2, exceptBind_ok]
  rfl

theorem parseAxisLine_ok (w t1 t2 t3 t4 : Token) (rest : List Token)
    (n : ℤ) (st inc : ℚ) (h1 : t1.asInt = some n) (h3 : t3.asFloat = some st)
    (h4 : t4.asFloat = some inc) :
    parseAxisLine (w :: t1 :: t2 :: t3 :: t4 :: rest) = .ok ⟨n, st, inc⟩ := by
  unfold parseAxisLine
  have e1 : reqIndex (w :: t1 :: t2 :: t3 :: t4 :: rest) 1 = .ok t1 := by
    simp [reqIndex]
  have e3 : reqIndex (w :: t1 :: t2 :: t3 :: t4 :: rest) 3 = .ok t3 := by
    simp [reqIndex]
  have e4 : reqIndex (w :: t1 :: t2 :: t3 :: t4 :: rest) 4 = .ok t4 := by
    simp [reqIndex]
  have f1 : reqInt t1 = .ok n := by unfold reqInt; rw [h1]
  have f3 : reqFloat t3 = .ok st := by unfold reqFloat; rw [h3]
  have f4 : reqFloat t4 = .ok inc := by unfold reqFloat; rw [h4]
  simp only [e1, e3, e4, f1, f3, f4, exceptBind_ok]
  rfl

theorem procLine_xdef_ok (obsType : ObsType) (d : DescDict) (w t1 t2 t3 t4 : Token)
    (rest : List Token) (n : ℤ) (st inc : ℚ) (hw : w.isWord "XDEF" = true)
    (h1 : t1.asInt = some n) (h3 : t3.asFloat = some st)
    (h4 : t4.asFloat = some inc) :
    procLine obsType d (w :: t1 :: t2 :: t3 :: t4 :: rest) =
      .ok { d with xdef := some ⟨n, st, inc⟩ } := by
  show procLineW obsType d w (w :: t1 :: t2 :: t3 :: t4 :: rest) = _
  unfold procLineW
  rw [Token.isWord_unique hw (by decide), if_pos hw]
  simp only [parseAxisLine_ok w t1 t2 t3 t4 rest n st inc h1 h3 h4, exceptBind_ok]
  rfl

theorem procLine_ydef_ok (obsType : ObsType) (d : DescDict) (w t1 t2 t3 t4 : Token)
    (rest : List Token) (n : ℤ) (st inc : ℚ) (hw : w.isWord "YDEF" = true)
    (h1 : t1.asInt = some n) (h3 : t3.asFloat = some st)
    (h4 : t4.asFloat = some inc) :
    procLine obsType d (w :: t1 :: t2 :: t3 :: t4 :: rest) =
      .ok { d with ydef := some ⟨n, st, inc⟩ } := by
  show procLineW obsType d w (w :: t1 :: t2 :: t3 :: t4 :: rest) = _
  unfold procLineW
  rw [Token.isWord_unique hw (by decide), Token.isWord_unique hw (by decide),
    if_pos hw]
  simp only [parseAxisLine_ok w t1 t2 t3 t4 rest n st inc h1 h3 h4, exceptBind_ok]
  rfl

theorem procLine_tdef_ok (obsType : ObsType) (d : DescDict) (w t1 t2 t3 : Token)
    (rest : List Token) (dt : CDate) (hw : w.isWord "TDEF" = true)
    (ht : t3.asDate (obsType == .adjusted || obsType == .icdr) = some dt) :
    procLine obsType d (w :: t1 :: t2 :: t3 :: rest) =
      .ok { d with startDate := some dt } := by
  show procLineW obsType d w (w :: t1 :: t2 :: t3 :: rest) = _
  unfold procLineW
  rw [Token.isWord_unique hw (by decide), Token.isWord_unique hw (by decide),
    Token.isWord_unique hw (by decide), if_pos hw]
  have e3 : reqIndex (w :: t1 :: t2 :: t3 :: rest) 3 = .ok t3 := by simp [reqIndex]
  have f3 : reqDate (t3.asDate (obsType == .adjusted || obsType == .icdr)) =
      .ok dt := by unfold reqDate; rw [ht]
  simp only [e3, f3, exceptBind_ok]
  rfl

theorem procLine_options_ok (obsType : ObsType) (d : DescDict) (w t1 t2 : Token)
    (rest : List Token) (hw : w.isWord "OPTIONS" = true) :
    procLine obsType d (w :: t1 :: t2 :: rest) =
      .ok { d with littleEndian := some (! t2.isWord "big_endian") } := by
  show procLineW obsType d w (w :: t1 :: t2 :: rest) = _
  unfold procLineW
  rw [Token.isWord_unique hw (by decide), Token.isWord_unique hw (by decide),
    Token.isWord_unique hw (by decide), Token.isWord_unique hw (by decide),
    if_pos hw]
  have e2 : reqIndex (w :: t1 :: t2 :: rest) 2 = .ok t2 := by simp [reqIndex]
  simp only [e2, exceptBind_ok]
  rfl

theorem procLine_cmorph_ok (obsType : ObsType) (d : DescDict) (w : Token)
    (rest : List Token) (hw : w.isWord "cmorph" = true) :
    procLine obsType d (w :: rest) =
      .ok { d with variableDescription := some ((w :: rest).drop 4) } := by
  show procLineW obsType d w (w :: rest) = _
  unfold procLineW
  rw [Token.isWord_unique hw (by decide), Token.isWord_unique hw (by decide),
    Token.isWord_unique hw (by decide), Token.isWord_unique hw (by decide),
    Token.isWord_unique hw (by decide), if_pos hw]
  rfl

theorem procLine_title_ok (obsType : ObsType) (d : DescDict) (w : Token)
    (rest : List Token) (hw : w.isWord "TITLE" = true) :
    procLine obsType d (w :: rest) = .ok { d with title := some rest } := by
  show procLineW obsType d w (w :: rest) = _
  unfold procLineW
  rw [Token.isWord_unique hw (by decide), Token.isWord_unique hw (by decide),
    Token.isWord_unique hw (by decide), Token.isWord_unique hw (by decide),
    Token.isWord_unique hw (by decide), Token.isWord_unique hw (by decide),
    if_pos hw]
  rfl

theorem insertSlice_ok (arch : Archive) (g : List (List (Option ℚ)))
    (h : g.length = arch.latDim ∧ ∀ row ∈ g, row.length = arch.lonDim) :
    insertSlice arch g = .ok { arch with
        prcp := [g]
        timeVals := arch.timeVals ++
          List.replicate (1 - arch.timeVals.length) ncFillInt } := by
  unfold insertSlice
  rw [if_pos h]

theorem insertSlice_err (arch : Archive) (g : List (List (Option ℚ)))
    (h : ¬ (g.length = arch.latDim ∧ ∀ row ∈ g, row.length = arch.lonDim)) :
    insertSlice arch g = .error .dimensionMismatch := by
  unfold insertSlice
  rw [if_neg h]

/-- Sufficient conditions for a run to complete (forward evaluation of
`runIngest` without definitional rational arithmetic). -/
theorem runIngest_ok (inp : RunInput) (p : Option Archive) (dd : DescDict)
    (ydef xdef : AxisDef) (latValues lonValues latSel lonSel : List ℚ)
    (t : List Token) (undef : ℚ) (grid : List (List (Option ℚ)))
    (hrd : readDescription inp.obsType inp.descLines = .ok dd)
    (hy : dd.ydef = some ydef) (hx : dd.xdef = some xdef)
    (hla : axisValues ydef.count ydef.start ydef.increment = some latValues)
    (hlo : axisValues xdef.count xdef.start xdef.increment = some lonValues)
    (hsel : conusSel inp.conusOnly latValues lonValues = .ok (latSel, lonSel))
    (ht : dd.title = some t) (hdl : inp.downloadFiles = true)
    (hle : inp.obsType ≠ .icdr → dd.littleEndian ≠ none)
    (hund : dd.undef = some undef)
    (hdec : gridDecode undef ydef.count.toNat xdef.count.toNat inp.fileValues =
      .ok grid)
    (hfit : (cropGrid latValues.length lonValues.length grid).length =
        latSel.length ∧
      ∀ row ∈ cropGrid latValues.length lonValues.length grid,
        row.length = lonSel.length) :
    (runIngest inp p).status = .done ∧ (runIngest inp p).opened = true ∧
    (runIngest inp p).onDisk = some
      { latDim := latSel.length, lonDim := lonSel.length, title := t
        timeVals := [ncFillInt]
        latVals := latSel, lonVals := lonSel
        prcp := [cropGrid latValues.length lonValues.length grid] } := by
  unfold runIngest
  simp only [hrd, hy, hx, hla, hlo, hsel]
  unfold runArchivePhase
  simp only [ht]
  rw [hdl, if_pos rfl]
  unfold runDecodeInsert
  rw [if_neg (fun hc => hle hc.1 hc.2)]
  simp only [hund, hdec]
  rw [insertSlice_ok _ _ ⟨hfit.1, hfit.2⟩]
  exact ⟨rfl, rfl, rfl⟩

/-- Sufficient conditions for the shape failure at insertion. -/
theorem runIngest_dimMismatch (inp : RunInput) (p : Option Archive)
    (dd : DescDict) (ydef xdef : AxisDef)
    (latValues lonValues latSel lonSel : List ℚ)
    (t : List Token) (undef : ℚ) (grid : List (List (Option ℚ)))
    (hrd : readDescription inp.obsType inp.descLines = .ok dd)
    (hy : dd.ydef = some ydef) (hx : dd.xdef = some xdef)
    (hla : axisValues ydef.count ydef.start ydef.increment = some latValues)
    (hlo : axisValues xdef.count xdef.start xdef.increment = some lonValues)
    (hsel : conusSel inp.conusOnly latValues lonValues = .ok (latSel, lonSel))
    (ht : dd.title = some t) (hdl : inp.downloadFiles = true)
    (hle : inp.obsType ≠ .icdr → dd.littleEndian ≠ none)
    (hund : dd.undef = some undef)
    (hdec : gridDecode undef ydef.count.toNat xdef.count.toNat inp.fileValues =
      .ok grid)
    (hfit : ¬ ((cropGrid latValues.length lonValues.length grid).length =
        latSel.length ∧
      ∀ row ∈ cropGrid latValues.length lonValues.length grid,
        row.length = lonSel.length)) :
    (runIngest inp p).status = .failed .dimensionMismatch ∧
    (runIngest inp p).onDisk = some
      { latDim := latSel.length, lonDim := lonSel.length, title := t
        timeVals := []
        latVals := latSel, lonVals := lonSel
        prcp := [] } := by
  unfold runIngest
  simp only [hrd, hy, hx, hla, hlo, hsel]
  unfold runArchivePhase
  simp only [ht]
  rw [hdl, if_pos rfl]
  unfold runDecodeInsert
  rw [if_neg (fun hc => hle hc.1 hc.2)]
  simp only [hund, hdec]
  rw [insertSlice_err _ _ hfit]
  exact ⟨rfl, rfl⟩

/-! ## Claim C7 -/

def smallDescLines : List (List Token) :=
  [[Token.str "TITLE", Token.str "t"],
   [Token.str "OPTIONS", Token.str "template", Token.str "little_endian"],
   [Token.str "UNDEF", Token.float (-999)],
   [Token.str "XDEF", Token.int 2, Token.str "LINEAR", Token.float 0, Token.float 1],
   [Token.str "YDEF", Token.int 2, Token.str "LINEAR", Token.float 0, Token.float 1]]

def smallDict : DescDict :=
  { undef := some (-999)
    xdef := some ⟨2, 0, 1⟩
    ydef := some ⟨2, 0, 1⟩
    littleEndian := some true
    title := some [Token.str "t"] }

theorem smallDescLines_parse :
    readDescription .raw smallDescLines = .ok smallDict := by
  unfold readDescription smallDescLines
  rw [readDescription_cons _ _ _ _ _
      (procLine_title_ok .raw _ (Token.str "TITLE") [Token.str "t"] (by decide))]
  rw [readDescription_cons _ _ _ _ _
      (procLine_options_ok .raw _ (Token.str "OPTIONS") (Token.str "template")
        (Token.str "little_endian") [] (by decide))]
  rw [readDescription_cons _ _ _ _ _
      (procLine_undef_ok .raw _ (Token.str "UNDEF") (Token.float (-999)) [] (-999)
        (by decide) rfl)]
  rw [readDescription_cons _ _ _ _ _
      (procLine_xdef_ok .raw _ (Token.str "XDEF") (Token.int 2)
        (Token.str "LINEAR") (Token.float 0) (Token.float 1) [] 2 0 1
        (by decide) rfl rfl rfl)]
  rw [readDescription_cons _ _ _ _ _
      (procLine_ydef_ok .raw _ (Token.str "YDEF") (Token.int 2)
        (Token.str "LINEAR") (Token.float 0) (Token.float 1) [] 2 0 1
        (by decide) rfl rfl rfl)]
  rfl

/-- A complete concrete run: full descriptor, 2×2 grid, target date
1900-01-02 (one day after the epoch). -/
def smallRunInput : RunInput :=
  { descLines := smallDescLines
    date := ⟨1900, 1, 2⟩
    obsType := .raw
    downloadFiles := true
    removeFiles := true
    conusOnly := false
    dirFiles := []
    fileValues := [1, 2, 3, 4] }

theorem smallAxis : axisValues 2 0 1 = some [0, 1] := by
  rw [axisValues_pos 2 0 1 (by norm_num) (by norm_num),
    show ((2 : ℤ).toNat) = 2 from rfl]
  norm_num [List.range_succ]

theorem smallRun_result :
    (runIngest smallRunInput none).status = .done ∧
    (runIngest smallRunInput none).opened = true ∧
    (runIngest smallRunInput none).onDisk = some
      { latDim := 2, lonDim := 2, title := [Token.str "t"]
        timeVals := [ncFillInt]
        latVals := [0, 1], lonVals := [0, 1]
        prcp := [[[some 1, some 2], [some 3, some 4]]] } := by
  have hdec2 : gridDecode (-999) 2 2 [1, 2, 3, 4] =
      .ok [[some 1, some 2], [some 3, some 4]] := by decide
  have h := runIngest_ok smallRunInput none smallDict ⟨2, 0, 1⟩ ⟨2, 0, 1⟩
    [0, 1] [0, 1] [0, 1] [0, 1] [Token.str "t"] (-999)
    [[some 1, some 2], [some 3, some 4]]
    smallDescLines_parse rfl rfl smallAxis smallAxis rfl rfl rfl
    (fun _ hc => by cases hc) rfl hdec2 ⟨by decide, by decide⟩
  refine ⟨h.1, h.2.1, ?_⟩
  rw [h.2.2]
  rfl

/-- C7 (code bug): the claim fails on the time coordinate.
`time_variable[:] = np.array(days_since)` (source line 254) assigns a
0-d array to the full slice of a variable on the unlimited `time`
dimension while that dimension is still empty, so the broadcast covers
zero entries and writes nothing; the single time entry that exists
after the `prcp` write at line 296 reads back as the `'i4'` default
fill value, not the days-since-1900 count.  Concretely: a completed
run for target date 1900-01-02 (days_since = 1) ends with the time
variable holding `[ncFillInt]` rather than `[1]`, while the data
variable's single time slice does equal the inserted grid as the claim
states. -/
theorem C7_time_fill_bug :
    (runIngest smallRunInput none).status = .done ∧
    daysSince1900 smallRunInput.date = 1 ∧
    ∃ a, (runIngest smallRunInput none).onDisk = some a ∧
      a.timeVals = [ncFillInt] ∧
      a.timeVals ≠ [daysSince1900 smallRunInput.date] ∧
      a.prcp = [[[some 1, some 2], [some 3, some 4]]] := by
  refine ⟨smallRun_result.1, by decide, _, smallRun_result.2.2, rfl, ?_, rfl⟩
  intro hcontra
  have h1 : ncFillInt = daysSince1900 smallRunInput.date :=
    List.head_eq_of_cons_eq hcontra
  exact absurd h1 (by decide)

/-! ## Claim C1 -/

/-- The sample descriptor of `_read_description`'s docstring, as token
lines (`0.125 = 1/8`, `-59.875 = -479/8`, `0.25 = 1/4`). -/
def stdDescLines : List (List Token) :=
  [[Token.str "DSET",
    Token.str "../0.25deg-DLY_00Z/%y4/%y4%m2/CMORPH_V1.0_RAW_0.25deg-DLY_00Z_%y4%m2%d2"],
   [Token.str "TITLE", Token.str "CMORPH", Token.str "Version", Token.str "1.0BETA",
    Token.str "Version,", Token.str "daily", Token.str "precip", Token.str "from",
    Token.str "00Z-24Z"],
   [Token.str "OPTIONS", Token.str "template", Token.str "little_endian"],
   [Token.str "UNDEF", Token.float (-999)],
   [Token.str "XDEF", Token.int 1440, Token.str "LINEAR", Token.float (1/8),
    Token.float (1/4)],
   [Token.str "YDEF", Token.int 480, Token.str "LINEAR", Token.float (-479/8),
    Token.float (1/4)],
   [Token.str "ZDEF", Token.int 1, Token.str "LEVELS", Token.int 1],
   [Token.str "TDEF", Token.int 99999, Token.str "LINEAR", Token.str "01jan1998",
    Token.str "1dy"],
   [Token.str "VARS", Token.int 1],
   [Token.str "cmorph", Token.int 1, Token.int 99, Token.str "yyyyy",
    Token.str "CMORPH", Token.str "Version", Token.str "1.o", Token.str "daily",
    Token.str "precipitation", Token.str "(mm)"],
   [Token.str "ENDVARS"]]

/-- The dictionary `_read_description` builds from the sample
descriptor. -/
def stdDict : DescDict :=
  { undef := some (-999)
    xdef := some ⟨1440, 1/8, 1/4⟩
    ydef := some ⟨480, -479/8, 1/4⟩
    startDate := some ⟨1998, 1, 1⟩
    littleEndian := some true
    variableDescription := some [Token.str "CMORPH", Token.str "Version",
      Token.str "1.o", Token.str "daily", Token.str "precipitation", Token.str "(mm)"]
    title := some [Token.str "CMORPH", Token.str "Version", Token.str "1.0BETA",
      Token.str "Version,", Token.str "daily", Token.str "precip", Token.str "from",
      Token.str "00Z-24Z"] }

theorem stdDescLines_parse : readDescription .raw stdDescLines = .ok stdDict := by
  unfold readDescription stdDescLines
  rw [readDescription_cons _ _ _ _ _ (procLine_ignored _ _ _ (by decide))]
  rw [readDescription_cons _ _ _ _ _
      (procLine_title_ok .raw _ (Token.str "TITLE")
        [Token.str "CMORPH", Token.str "Version", Token.str "1.0BETA",
         Token.str "Version,", Token.str "daily", Token.str "precip",
         Token.str "from", Token.str "00Z-24Z"] (by decide))]
  rw [readDescription_cons _ _ _ _ _
      (procLine_options_ok .raw _ (Token.str "OPTIONS") (Token.str "template")
        (Token.str "little_endian") [] (by decide))]
  rw [readDescription_cons _ _ _ _ _
      (procLine_undef_ok .raw _ (Token.str "UNDEF") (Token.float (-999)) []
        (-999) (by decide) rfl)]
  rw [readDescription_cons _ _ _ _ _
      (procLine_xdef_ok .raw _ (Token.str "XDEF") (Token.int 1440)
        (Token.str "LINEAR") (Token.float (1/8)) (Token.float (1/4)) []
        1440 (1/8) (1/4) (by decide) rfl rfl rfl)]
  rw [readDescription_cons _ _ _ _ _
      (procLine_ydef_ok .raw _ (Token.str "YDEF") (Token.int 480)
        (Token.str "LINEAR") (Token.float (-479/8)) (Token.float (1/4)) []
        480 (-479/8) (1/4) (by decide) rfl rfl rfl)]
  rw [readDescription_cons _ _ _ _ _ (procLine_ignored _ _ _ (by decide))]
  rw [readDescription_cons _ _ _ _ _
      (procLine_tdef_ok .raw _ (Token.str "TDEF") (Token.int 99999)
        (Token.str "LINEAR") (Token.str "01jan1998") [Token.str "1dy"]
        ⟨1998, 1, 1⟩ (by decide) (by decide))]
  rw [readDescription_cons _ _ _ _ _ (procLine_ignored _ _ _ (by decide))]
  rw [readDescription_cons _ _ _ _ _
      (procLine_cmorph_ok .raw _ (Token.str "cmorph")
        [Token.int 1, Token.int 99, Token.str "yyyyy", Token.str "CMORPH",
         Token.str "Version", Token.str "1.o", Token.str "daily",
         Token.str "precipitation", Token.str "(mm)"] (by decide))]
  rw [readDescription_cons _ _ _ _ _ (procLine_ignored _ _ _ (by decide))]
  rfl

/-- The CONUS-mode run on the standard descriptor with a full-size
480×1440 daily grid of zeros. -/
def stdConusInput : RunInput :=
  { descLines := stdDescLines
    date := ⟨2019, 6, 15⟩
    obsType := .raw
    downloadFiles := true
    removeFiles := false
    conusOnly := true
    dirFiles := []
    fileValues := List.replicate (480 * 1440) 0 }

set_option maxRecDepth 8000 in
/-- C1 (code bug): in CONUS-only mode the crop bounds `lat_len`,
`lon_len` of source line 296 were captured BEFORE the CONUS subset
(source lines 204-205), so the decoded full 480×1440 grid is "cropped"
to 480×1440 — a no-op — and the write into the 109×253 subset-sized
archive fails with a shape error (the spec's DimensionMismatch)
instead of writing the grid restricted to the archive's declared
spatial extents as the claim states. -/
theorem C1_conus_crop_bug :
    (runIngest stdConusInput none).status = .failed .dimensionMismatch ∧
    ∃ a, (runIngest stdConusInput none).onDisk = some a ∧
      a.latDim = 109 ∧ a.lonDim = 253 ∧ a.prcp = [] := by
  have hlatAx : axisValues 480 (-479/8) (1/4) =
      some (affineAxis 480 (-479/8) (1/4)) := by
    rw [axisValues_pos 480 _ _ (by norm_num) (by norm_num),
      show ((480 : ℤ).toNat) = 480 from rfl]
    rfl
  have hlonAx : axisValues 1440 (1/8) (1/4) =
      some (affineAxis 1440 (1/8) (1/4)) := by
    rw [axisValues_pos 1440 _ _ (by norm_num) (by norm_num),
      show ((1440 : ℤ).toNat) = 1440 from rfl]
    rfl
  have h23 : findClosest (affineAxis 480 (-479/8) (1/4)) 23 = .ok 332 := by
    rw [← stdLatAxis_eq]; exact findClosest_lat23
  have h50 : findClosest (affineAxis 480 (-479/8) (1/4)) 50 = .ok 440 := by
    rw [← stdLatAxis_eq]; exact findClosest_lat50
  have h232 : findClosest (affineAxis 1440 (1/8) (1/4)) 232 = .ok 928 := by
    rw [← stdLonAxis_eq]; exact findClosest_lon232
  have h295 : findClosest (affineAxis 1440 (1/8) (1/4)) 295 = .ok 1180 := by
    rw [← stdLonAxis_eq]; exact findClosest_lon295
  have hsel : conusSel true (affineAxis 480 (-479/8) (1/4))
      (affineAxis 1440 (1/8) (1/4)) =
      .ok (((affineAxis 480 (-479/8) (1/4)).drop 332).take 109,
           ((affineAxis 1440 (1/8) (1/4)).drop 928).take 253) := by
    unfold conusSel
    rw [if_pos rfl]
    simp only [h23, h50, h232, h295, exceptBind_ok]
    norm_num
    rfl
  have hmask : maskUndef (-999) (List.replicate (480 * 1440) 0) =
      List.replicate (480 * 1440) (some (0 : ℚ)) := by
    unfold maskUndef
    rw [List.map_replicate, if_neg (by norm_num)]
  have hdec : gridDecode (-999) ((480 : ℤ).toNat) ((1440 : ℤ).toNat)
      (List.replicate (480 * 1440) 0) =
      .ok ((List.range 480).map fun i =>
        ((List.replicate (480 * 1440) (some (0 : ℚ))).drop (i * 1440)).take 1440) := by
    show gridDecode (-999) 480 1440 _ = _
    unfold gridDecode reshapeGrid
    rw [hmask, if_pos (by rw [List.length_replicate])]
  have hlatSel :
      (((affineAxis 480 (-479/8) (1/4)).drop 332).take 109).length = 109 := by
    simp only [List.length_take, List.length_drop, affineAxis_length]
    omega
  have hlonSel :
      (((affineAxis 1440 (1/8) (1/4)).drop 928).take 253).length = 253 := by
    simp only [List.length_take, List.length_drop, affineAxis_length]
    omega
  have hcropLen : (cropGrid (affineAxis 480 (-479/8) (1/4)).length
      (affineAxis 1440 (1/8) (1/4)).length
      ((List.range 480).map fun i =>
        ((List.replicate (480 * 1440) (some (0 : ℚ))).drop (i * 1440)).take 1440)).length
      = 480 := by
    unfold cropGrid
    simp only [List.length_map, List.length_take, List.length_range,
      affineAxis_length]
    omega
  have hmain := runIngest_dimMismatch stdConusInput none stdDict
    ⟨480, -479/8, 1/4⟩ ⟨1440, 1/8, 1/4⟩
    (affineAxis 480 (-479/8) (1/4)) (affineAxis 1440 (1/8) (1/4))
    (((affineAxis 480 (-479/8) (1/4)).drop 332).take 109)
    (((affineAxis 1440 (1/8) (1/4)).drop 928).take 253)
    stdDict.title.get! (-999)
    ((List.range 480).map fun i =>
      ((List.replicate (480 * 1440) (some (0 : ℚ))).drop (i * 1440)).take 1440)
    stdDescLines_parse rfl rfl hlatAx hlonAx hsel rfl rfl
    (fun _ hc => by cases hc) rfl hdec
    (fun hc => by
      rw [hcropLen, hlatSel] at hc
      exact absurd hc.1 (by omega))
  refine ⟨hmain.1, _, hmain.2, ?_, ?_, rfl⟩
  · exact hlatSel
  · exact hlonSel

/-- C10 witness: the amended statement applied at concrete inputs and
two distinct prior contents — including a run that reaches archive
creation, whose on-disk result is independent of the prior content. -/
theorem C10_witness :
    archiveOpenMode badDescInput = .write ∧
    (runIngest badDescInput none).status =
      (runIngest badDescInput (some nonEmptyArchive)).status ∧
    (runIngest smallRunInput none).onDisk =
      (runIngest smallRunInput (some nonEmptyArchive)).onDisk :=
  ⟨(C10_amended badDescInput none (some nonEmptyArchive)).1,
   (C10_amended badDescInput none (some nonEmptyArchive)).2.1,
   (C10_amended smallRunInput none (some nonEmptyArchive)).2.2.2
     smallRun_result.2.1⟩

end Cmorph
